import Mathlib

/-!
# Agreeconnect: the auction bidding engine

A shallow embedding of the bidding, bid-cancellation, sell, cart, checkout, order and
listing-deletion routes of the marketplace (`src/routes/buyer.js`,
`src/routes/farmer.js`, `src/routes/cart.js`, `src/routes/admin.js`,
`src/middleware/auth.js`) over an explicit store of Mongo collections.

## Conventions of the embedding

* A JavaScript number that is not `NaN` is an element of a type `R` carrying a linear
  order and a zero.  The bidding routes only compare numbers and test them for zero, so
  nothing more is asked of `R` there; the non-`NaN` doubles (with `+0 = -0`, and with
  both infinities) are one such `R`, and so are `ℤ` and `ℚ`.  The routes that compute
  (add-to-cart, checkout and the cancellation of an order) ask `R` to be a linearly
  ordered ring: their arithmetic is exact, as it is on doubles for integers of magnitude
  below 2^53.  `NaN` can only enter through `parseFloat` and `parseInt`, so it is the
  `none` of the parsed request field.  A path that
  the schema types as `Number` holds a number (Mongoose refuses to store `NaN`); the
  `null` that an empty form field would leave there is not modelled.
* An `ObjectId` is a natural number.  A collection is the list of its documents in
  insertion order; `findOne`, `findById`, `deleteOne` and `save` act on the first
  document that matches.  New documents take their `_id` from the counter `nextId`.
* Every route is a function from the store and the request to the HTTP response and the
  new store.  Storage faults (the `catch` branches) are not modelled: every database
  call succeeds.
-/

namespace Agreeconnect

/-! ## Data model -/

/-- Listing status, the three values named in `models/Product.js`. -/
inductive ProductStatus where
  | OPEN
  | SOLD
  | CLOSED
  deriving DecidableEq, Repr

/-- The enum of `listingType` in `models/Product.js`. -/
inductive ListingType where
  | AUCTION
  | FIXED
  deriving DecidableEq, Repr

/-- A document of `models/Product.js`.  The display-only paths (`name`, `description`,
`unitSize`, `biddingEndTime`, `acceptedByFarmer`) are left out: no embedded route reads
them except to build message text. -/
structure Product (R : Type) where
  _id : Nat
  farmerId : Nat
  basePrice : R
  currentBid : R
  quantity : R
  status : ProductStatus := ProductStatus.OPEN
  winner : Option Nat := none
  listingType : ListingType := ListingType.AUCTION
  deriving DecidableEq, Repr

/-- Modelled from the spec: `models/Bid.js` is not among the sources.  The spec's Bid
has an identity, a listing reference, a bidder reference and an amount; the field names
are the ones the routes use (`productId`, `buyerId`, `amount`).  The timestamp is left
out. -/
structure Bid (R : Type) where
  _id : Nat
  productId : Nat
  buyerId : Nat
  amount : R
  deriving DecidableEq, Repr

/-- A document of `models/Order.js`.  The schema has no `quantity` path.  `date` is
left out. -/
structure Order (R : Type) where
  _id : Nat
  productId : Nat
  buyerId : Nat
  farmerId : Nat
  finalPrice : R
  status : String := "Pending"
  deriving DecidableEq, Repr

/-- Modelled from the spec: `models/Notification.js` is not among the sources.  The
recipient and the category are kept, under the names the routes use; the message text
is left out. -/
structure Notification where
  userId : Nat
  type : String
  deriving DecidableEq, Repr

/-- One line of a cart (`items` of `models/Cart.js`). -/
structure CartItem (R : Type) where
  product : Nat
  quantity : R
  deriving DecidableEq, Repr

/-- A document of `models/Cart.js`. -/
structure Cart (R : Type) where
  buyer : Nat
  items : List (CartItem R)
  deriving DecidableEq, Repr

/-- The database: one list per collection, and the source of fresh `_id`s. -/
structure Store (R : Type) where
  products : List (Product R) := []
  bids : List (Bid R) := []
  orders : List (Order R) := []
  notifications : List Notification := []
  carts : List (Cart R) := []
  nextId : Nat := 0
  deriving DecidableEq, Repr

/-- What `req.session.user` holds that the routes read. -/
structure SessionUser where
  _id : Nat
  role : String
  deriving DecidableEq, Repr

/-- The HTTP answer of a route: a redirect to a path, or a status with a body. -/
inductive Response where
  | redirect (path : String)
  | send (status : Nat) (body : String)
  deriving DecidableEq, Repr

/-! ## Middleware (`src/middleware/auth.js`) -/

/-- Guard `isLoggedIn`: without a session user the request is redirected to the login
page. -/
def isLoggedIn (session : Option SessionUser) : Except Response SessionUser :=
  match session with
  | none => Except.error (Response.redirect "/auth/login")
  | some user => Except.ok user

/-- Guard `isBuyer`: `user.role !== 'buyer'` answers 403. -/
def isBuyer (user : SessionUser) : Except Response Unit :=
  if user.role ≠ "buyer" then Except.error (Response.send 403 "Forbidden: Buyers only")
  else Except.ok ()

/-- Guard `isFarmer`: `user.role !== 'farmer'` answers 403. -/
def isFarmer (user : SessionUser) : Except Response Unit :=
  if user.role ≠ "farmer" then Except.error (Response.send 403 "Forbidden: Farmers only")
  else Except.ok ()

/-! ## Collection primitives -/

section Collections

variable {R : Type}

/-- `Product.findById(id)`. -/
def findProductById (products : List (Product R)) (id : Nat) : Option (Product R) :=
  products.find? (fun p => p._id == id)

/-- `product.save()` for a document read from the collection: the stored document with
the same `_id` is replaced. -/
def saveProduct : List (Product R) → Product R → List (Product R)
  | [], _ => []
  | q :: qs, p => if q._id = p._id then p :: qs else q :: saveProduct qs p

/-- `Bid.findOne({ _id: id, buyerId: buyerId })`. -/
def findBidOfBuyer (bids : List (Bid R)) (id buyerId : Nat) : Option (Bid R) :=
  bids.find? (fun b => b._id == id && b.buyerId == buyerId)

/-- `Bid.deleteOne({ _id: id })`. -/
def deleteBid (bids : List (Bid R)) (id : Nat) : List (Bid R) :=
  bids.eraseP (fun b => b._id == id)

/-- The bids of one listing: the filter `{ productId: productId }`. -/
def bidsOfProduct (bids : List (Bid R)) (productId : Nat) : List (Bid R) :=
  bids.filter (fun b => b.productId == productId)

/-- `Bid.findOne({ productId: productId }).sort({ amount: -1 })`: a bid of the listing
with the largest amount, the earliest inserted one among equals; `none` when the
listing has no bid. -/
def findHighestBid [LinearOrder R] (bids : List (Bid R)) (productId : Nat) : Option (Bid R) :=
  List.argmax (fun b => b.amount) (bidsOfProduct bids productId)

end Collections

/-! ## Buyer routes (`src/routes/buyer.js`) -/

section Routes

variable {R : Type} [LinearOrder R] [Zero R]

/-- Route `POST /buyer/bid/:id` (place_bid).  `bidAmount` is the value of
`parseFloat(req.body.bidAmount)`, `none` standing for `NaN`.  The `bid_update` emit
changes no stored state and is left out. -/
def place_bid (s : Store R) (session : Option SessionUser) (productId : Nat)
    (bidAmount : Option R) : Response × Store R :=
  match isLoggedIn session with
  | Except.error r => (r, s)
  | Except.ok user =>
    match isBuyer user with
    | Except.error r => (r, s)
    | Except.ok _ =>
      match bidAmount with
      | none => (Response.redirect "/buyer/products?msg=Invalid+Bid+Amount", s)
      | some amount =>
        if amount = 0 then (Response.redirect "/buyer/products?msg=Invalid+Bid+Amount", s)
        else
          match findProductById s.products productId with
          | none => (Response.redirect "/buyer/products?msg=Product+Not+Found", s)
          | some product =>
            if amount ≤ product.currentBid then
              (Response.redirect "/buyer/products?msg=Bid+Too+Low", s)
            else
              let bid : Bid R :=
                { _id := s.nextId, productId := product._id, buyerId := user._id,
                  amount := amount }
              let product' : Product R := { product with currentBid := amount }
              (Response.redirect "/buyer/products?msg=Bid+Placed+Successfully",
                { s with
                  bids := s.bids ++ [bid]
                  products := saveProduct s.products product'
                  notifications :=
                    s.notifications ++ [{ userId := product.farmerId, type := "BID" }]
                  nextId := s.nextId + 1 })

/-- Route `POST /buyer/bids/:id/cancel` (cancel_bid). -/
def cancel_bid (s : Store R) (session : Option SessionUser) (bidId : Nat) :
    Response × Store R :=
  match isLoggedIn session with
  | Except.error r => (r, s)
  | Except.ok user =>
    match isBuyer user with
    | Except.error r => (r, s)
    | Except.ok _ =>
      match findBidOfBuyer s.bids bidId user._id with
      | none => (Response.redirect "/buyer/bids?msg=Bid+Not+Found", s)
      | some bid =>
        let productId := bid.productId
        let bids' := deleteBid s.bids bid._id
        let nextHighestBid := findHighestBid bids' productId
        match findProductById s.products productId with
        | none => (Response.redirect "/buyer/bids?msg=Bid+Cancelled", { s with bids := bids' })
        | some product =>
          let product' : Product R :=
            match nextHighestBid with
            | some b => { product with currentBid := b.amount }
            | none => { product with currentBid := product.basePrice }
          (Response.redirect "/buyer/bids?msg=Bid+Cancelled",
            { s with bids := bids', products := saveProduct s.products product' })

/-! ## Farmer routes (`src/routes/farmer.js`) -/

/-- Route `POST /farmer/product/:id/sell` (accept_highest_bid). -/
def accept_highest_bid (s : Store R) (session : Option SessionUser) (productId : Nat) :
    Response × Store R :=
  match isLoggedIn session with
  | Except.error r => (r, s)
  | Except.ok user =>
    match isFarmer user with
    | Except.error r => (r, s)
    | Except.ok _ =>
      match findProductById s.products productId with
      | none => (Response.redirect "/farmer/products", s)
      | some product =>
        match findHighestBid s.bids product._id with
        | none => (Response.redirect "/farmer/products", s)
        | some highestBid =>
          let product' : Product R :=
            { product with status := ProductStatus.SOLD, winner := some highestBid.buyerId }
          let order : Order R :=
            { _id := s.nextId, productId := product._id, buyerId := highestBid.buyerId,
              farmerId := user._id, finalPrice := highestBid.amount }
          (Response.redirect "/farmer/orders",
            { s with
              products := saveProduct s.products product'
              orders := s.orders ++ [order]
              nextId := s.nextId + 1 })

end Routes

/-! ## More middleware and collection primitives -/

/-- Guard `isAdmin`: `user.role !== 'admin'` answers 403. -/
def isAdmin (user : SessionUser) : Except Response Unit :=
  if user.role ≠ "admin" then Except.error (Response.send 403 "Forbidden: Admins only")
  else Except.ok ()

section MoreCollections

variable {R : Type}

/-- `Order.findOne({ _id: id, buyerId: buyerId })`. -/
def findOrderOfBuyer (orders : List (Order R)) (id buyerId : Nat) : Option (Order R) :=
  orders.find? (fun o => o._id == id && o.buyerId == buyerId)

/-- `Order.findOne({ _id: id, farmerId: farmerId })`. -/
def findOrderOfFarmer (orders : List (Order R)) (id farmerId : Nat) : Option (Order R) :=
  orders.find? (fun o => o._id == id && o.farmerId == farmerId)

/-- `order.save()` for a document read from the collection: the stored document with
the same `_id` is replaced. -/
def saveOrder : List (Order R) → Order R → List (Order R)
  | [], _ => []
  | q :: qs, o => if q._id = o._id then o :: qs else q :: saveOrder qs o

/-- `Order.findByIdAndUpdate(id, { status })`: the status of the stored order with that
`_id` is overwritten. -/
def updateOrderStatus : List (Order R) → Nat → String → List (Order R)
  | [], _, _ => []
  | q :: qs, id, status =>
    if q._id = id then { q with status := status } :: qs
    else q :: updateOrderStatus qs id status

/-- `Product.findOne({ _id: id, farmerId: farmerId })`. -/
def findProductOfFarmer (products : List (Product R)) (id farmerId : Nat) :
    Option (Product R) :=
  products.find? (fun p => p._id == id && p.farmerId == farmerId)

/-- `Product.findByIdAndDelete(id)`. -/
def deleteProduct (products : List (Product R)) (id : Nat) : List (Product R) :=
  products.eraseP (fun p => p._id == id)

/-- `Bid.deleteMany({ productId: productId })`. -/
def deleteBidsOfProduct (bids : List (Bid R)) (productId : Nat) : List (Bid R) :=
  bids.filter (fun b => b.productId != productId)

/-- `Cart.findOne({ buyer: buyer })`. -/
def findCartOfBuyer (carts : List (Cart R)) (buyer : Nat) : Option (Cart R) :=
  carts.find? (fun c => c.buyer == buyer)

/-- `cart.items = []; cart.save()` for the cart that `findCartOfBuyer` returned. -/
def clearCart : List (Cart R) → Nat → List (Cart R)
  | [], _ => []
  | c :: cs, buyer =>
    if c.buyer = buyer then { c with items := [] } :: cs else c :: clearCart cs buyer

/-- `.populate('items.product')`: each cart line with the listing its reference points
to, `none` when no such listing is stored, and its quantity. -/
def populateItems (products : List (Product R)) (items : List (CartItem R)) :
    List (Option (Product R) × R) :=
  items.map (fun item => (findProductById products item.product, item.quantity))

/-- Expression `order.quantity || 1` of the two order-cancellation routes.  The schema
of `models/Order.js` declares no `quantity` path, so Mongoose keeps none on an order it
builds or loads; the left operand is `undefined` and the expression is `1`. -/
def orderQuantityOrOne [One R] (_order : Order R) : R := 1

end MoreCollections

/-! ## Order routes (`src/routes/buyer.js`, `src/routes/farmer.js`, `src/routes/admin.js`) -/

section OrderRoutes

variable {R : Type} [LinearOrderedRing R]

/-- Route `POST /buyer/orders/:id/cancel` (cancel_order, buyer path). -/
def cancel_order_buyer (s : Store R) (session : Option SessionUser) (orderId : Nat) :
    Response × Store R :=
  match isLoggedIn session with
  | Except.error r => (r, s)
  | Except.ok user =>
    match isBuyer user with
    | Except.error r => (r, s)
    | Except.ok _ =>
      match findOrderOfBuyer s.orders orderId user._id with
      | none => (Response.redirect "/buyer/orders?msg=Order+Not+Found", s)
      | some order =>
        if order.status = "Delivered" ∨ order.status = "Cancelled" then
          (Response.redirect "/buyer/orders?msg=Cannot+Cancel+Completed+Order", s)
        else
          let orders' := saveOrder s.orders { order with status := "Cancelled" }
          match findProductById s.products order.productId with
          | none =>
            (Response.redirect "/buyer/orders?msg=Order+Cancelled", { s with orders := orders' })
          | some product =>
            if product.listingType = ListingType.FIXED then
              let quantity' := product.quantity + orderQuantityOrOne order
              let product' : Product R :=
                if product.status = ProductStatus.SOLD ∨ 0 < quantity' then
                  { product with quantity := quantity', status := ProductStatus.OPEN }
                else { product with quantity := quantity' }
              (Response.redirect "/buyer/orders?msg=Order+Cancelled",
                { s with orders := orders', products := saveProduct s.products product' })
            else
              (Response.redirect "/buyer/orders?msg=Order+Cancelled",
                { s with orders := orders' })

/-- Route `POST /farmer/orders/:id/cancel` (cancel_order, farmer path). -/
def cancel_order_farmer (s : Store R) (session : Option SessionUser) (orderId : Nat) :
    Response × Store R :=
  match isLoggedIn session with
  | Except.error r => (r, s)
  | Except.ok user =>
    match isFarmer user with
    | Except.error r => (r, s)
    | Except.ok _ =>
      match findOrderOfFarmer s.orders orderId user._id with
      | none => (Response.redirect "/farmer/orders?msg=Order+Not+Found", s)
      | some order =>
        if order.status = "Delivered" ∨ order.status = "Cancelled" then
          (Response.redirect "/farmer/orders?msg=Cannot+Cancel+Completed+Order", s)
        else
          let orders' := saveOrder s.orders { order with status := "Cancelled" }
          match findProductById s.products order.productId with
          | none =>
            (Response.redirect "/farmer/orders?msg=Order+Cancelled",
              { s with orders := orders' })
          | some product =>
            if product.listingType = ListingType.FIXED then
              let quantity' := product.quantity + orderQuantityOrOne order
              let product' : Product R :=
                if product.status = ProductStatus.SOLD ∧ 0 < quantity' then
                  { product with quantity := quantity', status := ProductStatus.OPEN }
                else { product with quantity := quantity' }
              (Response.redirect "/farmer/orders?msg=Order+Cancelled",
                { s with orders := orders', products := saveProduct s.products product' })
            else
              (Response.redirect "/farmer/orders?msg=Order+Cancelled",
                { s with orders := orders' })

end OrderRoutes

section StatusRoutes

variable {R : Type}

/-- Route `POST /farmer/orders/:id/accept` (accept order). -/
def accept_order (s : Store R) (session : Option SessionUser) (orderId : Nat) :
    Response × Store R :=
  match isLoggedIn session with
  | Except.error r => (r, s)
  | Except.ok user =>
    match isFarmer user with
    | Except.error r => (r, s)
    | Except.ok _ =>
      match findOrderOfFarmer s.orders orderId user._id with
      | none => (Response.redirect "/farmer/orders?msg=Order+Not+Found", s)
      | some order =>
        if order.status ≠ "Pending" then
          (Response.redirect "/farmer/orders?msg=Order+Already+Processed", s)
        else
          (Response.redirect "/farmer/orders?msg=Order+Accepted",
            { s with orders := saveOrder s.orders { order with status := "Accepted" } })

/-- Route `POST /admin/orders/status/:id` (admin status update).  `status` is the field
of the request body, taken to be present. -/
def admin_update_order_status (s : Store R) (session : Option SessionUser) (orderId : Nat)
    (status : String) : Response × Store R :=
  match isLoggedIn session with
  | Except.error r => (r, s)
  | Except.ok user =>
    match isAdmin user with
    | Except.error r => (r, s)
    | Except.ok _ =>
      (Response.redirect "/admin/orders",
        { s with orders := updateOrderStatus s.orders orderId status })

/-- Route `POST /farmer/product/:id/delete` (the seller's delete-product). -/
def delete_product (s : Store R) (session : Option SessionUser) (productId : Nat) :
    Response × Store R :=
  match isLoggedIn session with
  | Except.error r => (r, s)
  | Except.ok user =>
    match isFarmer user with
    | Except.error r => (r, s)
    | Except.ok _ =>
      match findProductOfFarmer s.products productId user._id with
      | none => (Response.redirect "/farmer/products?msg=Product+Not+Found", s)
      | some product =>
        if product.status = ProductStatus.SOLD then
          (Response.redirect "/farmer/products?msg=Cannot+Delete+Sold+Product", s)
        else
          (Response.redirect "/farmer/products?msg=Product+Deleted",
            { s with
              products := deleteProduct s.products productId
              bids := deleteBidsOfProduct s.bids productId })

/-- Route `POST /admin/products/delete/:id` (the admin's delete-product). -/
def admin_delete_product (s : Store R) (session : Option SessionUser) (productId : Nat) :
    Response × Store R :=
  match isLoggedIn session with
  | Except.error r => (r, s)
  | Except.ok user =>
    match isAdmin user with
    | Except.error r => (r, s)
    | Except.ok _ =>
      (Response.redirect "/admin/products",
        { s with products := deleteProduct s.products productId })

end StatusRoutes

/-! ## Checkout (`src/routes/cart.js`) -/

section CheckoutRoute

variable {R : Type} [LinearOrderedRing R]

/-- The tail of the loop body of checkout: the Order of the line is saved and the seller
is notified.  `itemProduct` is the populated `item.product`, `product` the re-read
listing as the loop body left it.  The `quantity` handed to `new Order` is dropped, the
schema having no such path.  In `finalPrice`, `product.currentBid || product.basePrice`
is the base price exactly when the current bid is zero. -/
def orderCreated (s : Store R) (user : SessionUser) (itemProduct product : Product R)
    (quantity : R) : Store R :=
  { s with
    orders := s.orders ++
      [{ _id := s.nextId, productId := itemProduct._id, buyerId := user._id,
         farmerId := itemProduct.farmerId,
         finalPrice :=
           (if product.currentBid = 0 then product.basePrice else product.currentBid) *
             quantity,
         status := "Pending" }]
    notifications := s.notifications ++ [{ userId := product.farmerId, type := "ORDER" }]
    nextId := s.nextId + 1 }

/-- The loop body of checkout for one line whose listing was populated and re-read. -/
def checkoutLine (s : Store R) (user : SessionUser) (itemProduct product : Product R)
    (quantity : R) : Store R :=
  if product.listingType = ListingType.FIXED then
    if product.quantity < quantity then s
    else if product.quantity - quantity ≤ 0 then
      let product' : Product R :=
        { product with quantity := 0, status := ProductStatus.SOLD }
      orderCreated
        { s with
          notifications := s.notifications ++ [{ userId := product.farmerId, type := "INFO" }]
          products := saveProduct s.products product' }
        user itemProduct product' quantity
    else
      let product' : Product R :=
        { product with quantity := product.quantity - quantity }
      orderCreated { s with products := saveProduct s.products product' }
        user itemProduct product' quantity
  else
    let product' : Product R :=
      { product with status := ProductStatus.SOLD, winner := some user._id }
    orderCreated { s with products := saveProduct s.products product' }
      user itemProduct product' quantity

/-- The loop `for (const item of cart.items)` of checkout over the populated lines.  A
line whose listing no longer exists is passed over.  `Except.error` is the `catch`
branch, reached when the re-read of a populated listing finds nothing, with the store as
the lines served so far left it. -/
def checkoutLoop (s : Store R) (user : SessionUser) :
    List (Option (Product R) × R) → Except (Store R) (Store R)
  | [] => Except.ok s
  | (none, _) :: rest => checkoutLoop s user rest
  | (some itemProduct, quantity) :: rest =>
    match findProductById s.products itemProduct._id with
    | none => Except.error s
    | some product => checkoutLoop (checkoutLine s user itemProduct product quantity) user rest

/-- Route `POST /cart/checkout` (checkout). -/
def checkout (s : Store R) (session : Option SessionUser) : Response × Store R :=
  match isLoggedIn session with
  | Except.error r => (r, s)
  | Except.ok user =>
    match isBuyer user with
    | Except.error r => (r, s)
    | Except.ok _ =>
      match findCartOfBuyer s.carts user._id with
      | none => (Response.redirect "/cart?msg=Cart+Empty", s)
      | some cart =>
        if cart.items.length = 0 then (Response.redirect "/cart?msg=Cart+Empty", s)
        else
          match checkoutLoop s user (populateItems s.products cart.items) with
          | Except.error s' => (Response.redirect "/cart?msg=Checkout+Failed", s')
          | Except.ok s' =>
            (Response.redirect "/buyer/orders?msg=Order+Placed+Successfully",
              { s' with carts := clearCart s'.carts user._id })

/-- `cart.items[itemIndex].quantity = newQuantity` for the first line of the listing. -/
def setItemQuantity : List (CartItem R) → Nat → R → List (CartItem R)
  | [], _, _ => []
  | item :: items, productId, quantity =>
    if item.product = productId then { item with quantity := quantity } :: items
    else item :: setItemQuantity items productId quantity

/-- `cart.save()` in add-to-cart: the cart that `Cart.findOne({ buyer })` returned is
stored with its new lines, and the cart made by `new Cart` when there was none is
inserted. -/
def saveCartItems : List (Cart R) → Nat → List (CartItem R) → List (Cart R)
  | [], buyer, items => [{ buyer := buyer, items := items }]
  | c :: cs, buyer, items =>
    if c.buyer = buyer then { c with items := items } :: cs
    else c :: saveCartItems cs buyer items

/-- Expression `parseInt(req.body.quantity) || 1`: `NaN` and zero give 1.  `parsed` is
the value of `parseInt`, `none` standing for `NaN`. -/
def quantityOrOne (parsed : Option R) : R :=
  match parsed with
  | none => 1
  | some q => if q = 0 then 1 else q

/-- The lines of `cart` after `if (!cart) cart = new Cart({ buyer, items: [] })`. -/
def cartItemsOrEmpty (carts : List (Cart R)) (buyer : Nat) : List (CartItem R) :=
  match findCartOfBuyer carts buyer with
  | some cart => cart.items
  | none => []

/-- Route `POST /cart/add/:id` (add to cart).  `parsed` is the value of
`parseInt(req.body.quantity)`, `none` standing for `NaN`; `numberToString` is the
conversion of a number to text that the template of the refusal message applies. -/
def add_to_cart (numberToString : R → String) (s : Store R) (session : Option SessionUser)
    (productId : Nat) (parsed : Option R) : Response × Store R :=
  match isLoggedIn session with
  | Except.error r => (r, s)
  | Except.ok user =>
    match isBuyer user with
    | Except.error r => (r, s)
    | Except.ok _ =>
      let quantity : R := quantityOrOne parsed
      let items : List (CartItem R) := cartItemsOrEmpty s.carts user._id
      match findProductById s.products productId with
      | none => (Response.redirect "/buyer/products?msg=Product+Not+Found", s)
      | some product =>
        let existing := items.find? (fun item => item.product == productId)
        let newQuantity : R :=
          match existing with
          | some item => quantity + item.quantity
          | none => quantity
        if product.listingType = ListingType.FIXED ∧ product.quantity < newQuantity then
          (Response.redirect
            ("/buyer/products?msg=Only+" ++ numberToString product.quantity ++
              "+Items+Available"), s)
        else
          let items' : List (CartItem R) :=
            match existing with
            | some _ => setItemQuantity items productId newQuantity
            | none => items ++ [{ product := productId, quantity := quantity }]
          (Response.redirect "/cart?msg=Item+Added",
            { s with carts := saveCartItems s.carts user._id items' })

end CheckoutRoute

/-! ## Derived definitions used to state the properties -/

section Derived

variable {R : Type} [LinearOrder R] [Zero R]

/-- The store after an accepted bid of `amount` by `user` on `product`. -/
def bidPlaced (s : Store R) (user : SessionUser) (product : Product R) (amount : R) :
    Store R :=
  { s with
    bids := s.bids ++
      [{ _id := s.nextId, productId := product._id, buyerId := user._id, amount := amount }]
    products := saveProduct s.products { product with currentBid := amount }
    notifications := s.notifications ++ [{ userId := product.farmerId, type := "BID" }]
    nextId := s.nextId + 1 }

/-- The amounts of the bids the ledger holds for one listing, in ledger order. -/
def amountsOfProduct (bids : List (Bid R)) (productId : Nat) : List R :=
  (bidsOfProduct bids productId).map (fun b => b.amount)

/-- The maximum of a list of amounts, `none` for the empty list. -/
def maxAmount? : List R → Option R
  | [] => none
  | a :: as => some (as.foldl max a)

/-- The price the spec asks of a cancellation: the maximum amount among the remaining
bids, or the base price when none remain. -/
def recomputedPrice (basePrice : R) (amounts : List R) : R :=
  (maxAmount? amounts).getD basePrice

/-- The price the spec's invariant asks for: the maximum of the base price and of all
the amounts. -/
def bestPrice (basePrice : R) (amounts : List R) : R :=
  amounts.foldl max basePrice

/-- The store after the cancellation of `bid`: the bid is deleted and, when its listing
exists, the listing's price is the spec's recomputed price over the remaining ledger. -/
def bidCancelled (s : Store R) (bid : Bid R) : Store R :=
  match findProductById s.products bid.productId with
  | none => { s with bids := deleteBid s.bids bid._id }
  | some product =>
    { s with
      bids := deleteBid s.bids bid._id
      products := saveProduct s.products
        { product with
          currentBid := recomputedPrice product.basePrice
            (amountsOfProduct (deleteBid s.bids bid._id) bid.productId) } }

/-- The store after `user` has sold `product` to the bidder of `highestBid`. -/
def productSold (s : Store R) (user : SessionUser) (product : Product R)
    (highestBid : Bid R) : Store R :=
  { s with
    products := saveProduct s.products
      { product with status := ProductStatus.SOLD, winner := some highestBid.buyerId }
    orders := s.orders ++
      [{ _id := s.nextId, productId := product._id, buyerId := highestBid.buyerId,
         farmerId := user._id, finalPrice := highestBid.amount }]
    nextId := s.nextId + 1 }

/-- One request to the bidding engine. -/
inductive Op (R : Type) where
  | place_bid (session : Option SessionUser) (productId : Nat) (bidAmount : Option R)
  | cancel_bid (session : Option SessionUser) (bidId : Nat)
  | accept_highest_bid (session : Option SessionUser) (productId : Nat)

/-- The store after one request has been served. -/
def step (s : Store R) : Op R → Store R
  | Op.place_bid session productId bidAmount => (place_bid s session productId bidAmount).2
  | Op.cancel_bid session bidId => (cancel_bid s session bidId).2
  | Op.accept_highest_bid session productId => (accept_highest_bid s session productId).2

/-- The store after a sequence of requests served one after another. -/
def run (s : Store R) (ops : List (Op R)) : Store R :=
  ops.foldl step s

/-- The ledger is well formed: bid ids are unique and were all issued by the counter. -/
def LedgerOk (s : Store R) : Prop :=
  (s.bids.map (fun b => b._id)).Nodup ∧ ∀ b ∈ s.bids, b._id < s.nextId

/-- The price invariant of one listing with base price `basePrice`: the listing exists,
keeps its base price, its currentBid is the maximum of the base price and of the amounts
of its bids in the ledger, and none of these bids is below the base price. -/
def PriceOk (s : Store R) (productId : Nat) (basePrice : R) : Prop :=
  ∃ p, findProductById s.products productId = some p ∧ p.basePrice = basePrice ∧
    p.currentBid = bestPrice basePrice (amountsOfProduct s.bids productId) ∧
    ∀ b ∈ s.bids, b.productId = productId → basePrice ≤ b.amount

end Derived

/-! ## Derived definitions for the fulfillment, order and interleaving properties -/

section DerivedMore

variable {R : Type}

/-- The orders stored for one listing. -/
def ordersOfProduct (orders : List (Order R)) (productId : Nat) : List (Order R) :=
  orders.filter (fun o => o.productId == productId)

/-- A sell request, by its session and the listing it names, is one that a farmer session
makes on listing `productId`. -/
def isFarmerCall (productId : Nat) (call : Option SessionUser × Nat) : Bool :=
  call.2 == productId &&
    match call.1 with
    | some user => user.role == "farmer"
    | none => false

/-- The store after a sequence of accept_highest_bid requests served one after another. -/
def sellAll [LinearOrder R] (s : Store R) (calls : List (Option SessionUser × Nat)) :
    Store R :=
  calls.foldl (fun t call => (accept_highest_bid t call.1 call.2).2) s

/-- The place of a status in the sequence Pending, Accepted, Shipped, Delivered. -/
def statusRank (status : String) : Option Nat :=
  if status = "Pending" then some 0
  else if status = "Accepted" then some 1
  else if status = "Shipped" then some 2
  else if status = "Delivered" then some 3
  else none

/-- A change of order status from `old` to `new` does not regress: a Cancelled or
Delivered order keeps its status, and the status does not move to an earlier place of
the sequence. -/
def NoRegress (old new : String) : Prop :=
  ((old = "Cancelled" ∨ old = "Delivered") → new = old) ∧
  ∀ i j, statusRank old = some i → statusRank new = some j → i ≤ j

/-- Between two states of the orders collection no order was added or removed and no
order's status regressed. -/
def OrdersNoRegress (before after : List (Order R)) : Prop :=
  List.Forall₂ (fun o o' => o'._id = o._id ∧ NoRegress o.status o'.status) before after

/-- Listing `productId` is stored as an AUCTION listing that is SOLD. -/
def SoldAuction (products : List (Product R)) (productId : Nat) : Prop :=
  ∃ p, findProductById products productId = some p ∧
    p.listingType = ListingType.AUCTION ∧ p.status = ProductStatus.SOLD

/-- One request among place_bid, cancel_bid, accept_highest_bid, checkout and the two
cancel_order paths. -/
inductive Request (R : Type) where
  | place_bid (session : Option SessionUser) (productId : Nat) (bidAmount : Option R)
  | cancel_bid (session : Option SessionUser) (bidId : Nat)
  | accept_highest_bid (session : Option SessionUser) (productId : Nat)
  | checkout (session : Option SessionUser)
  | cancel_order_buyer (session : Option SessionUser) (orderId : Nat)
  | cancel_order_farmer (session : Option SessionUser) (orderId : Nat)

/-- The store after one such request has been served. -/
def serve [LinearOrderedRing R] (s : Store R) : Request R → Store R
  | Request.place_bid session productId bidAmount =>
    (place_bid s session productId bidAmount).2
  | Request.cancel_bid session bidId => (cancel_bid s session bidId).2
  | Request.accept_highest_bid session productId =>
    (accept_highest_bid s session productId).2
  | Request.checkout session => (checkout s session).2
  | Request.cancel_order_buyer session orderId => (cancel_order_buyer s session orderId).2
  | Request.cancel_order_farmer session orderId => (cancel_order_farmer s session orderId).2

/-- The store after a sequence of such requests served one after another. -/
def serveAll [LinearOrderedRing R] (s : Store R) (requests : List (Request R)) : Store R :=
  requests.foldl serve s

/-! ### The place_bid handler cut at its `await`s

Between two `await`s a handler runs alone; at an `await` another request may be served.
`BidTask` is the handler of `POST /buyer/bid/:id` with its position: each constructor is
what the handler holds in memory when control comes back to it. -/

/-- The handler of one place_bid request and where it stands. -/
inductive BidTask (R : Type) where
  | arrived (user : SessionUser) (productId : Nat) (amount : R)
  | fetched (user : SessionUser) (product : Product R) (amount : R)
  | validated (user : SessionUser) (product : Product R) (amount : R)
  | appended (user : SessionUser) (product : Product R) (amount : R)
  | priced (user : SessionUser) (product : Product R) (amount : R)
  | answered (response : Response)
  deriving DecidableEq, Repr

/-- The part of the handler before its first `await`: the guards and the check of the
parsed amount. -/
def bidTask [LinearOrder R] [Zero R] (session : Option SessionUser) (productId : Nat)
    (bidAmount : Option R) : BidTask R :=
  match isLoggedIn session with
  | Except.error r => BidTask.answered r
  | Except.ok user =>
    match isBuyer user with
    | Except.error r => BidTask.answered r
    | Except.ok _ =>
      match bidAmount with
      | none => BidTask.answered (Response.redirect "/buyer/products?msg=Invalid+Bid+Amount")
      | some amount =>
        if amount = 0 then
          BidTask.answered (Response.redirect "/buyer/products?msg=Invalid+Bid+Amount")
        else BidTask.arrived user productId amount

/-- `product.save()` after `product.currentBid = amount`: Mongoose writes the modified
path only, `$set: { currentBid: amount }` on the stored document with that `_id`; the
other paths of the stored document stay as another writer may have left them. -/
def setCurrentBid : List (Product R) → Nat → R → List (Product R)
  | [], _, _ => []
  | q :: qs, id, amount =>
    if q._id = id then { q with currentBid := amount } :: qs
    else q :: setCurrentBid qs id amount

/-- One step of a handler: the read of the listing, the comparison with the price that
was read, the append to the ledger, the write of the price (`product.save()`, which
sets `currentBid` on the stored document), the notification with the answer. -/
def advance [LinearOrder R] (s : Store R) : BidTask R → Store R × BidTask R
  | BidTask.arrived user productId amount =>
    match findProductById s.products productId with
    | none =>
      (s, BidTask.answered (Response.redirect "/buyer/products?msg=Product+Not+Found"))
    | some product => (s, BidTask.fetched user product amount)
  | BidTask.fetched user product amount =>
    if amount ≤ product.currentBid then
      (s, BidTask.answered (Response.redirect "/buyer/products?msg=Bid+Too+Low"))
    else (s, BidTask.validated user product amount)
  | BidTask.validated user product amount =>
    ({ s with
        bids := s.bids ++
          [{ _id := s.nextId, productId := product._id, buyerId := user._id,
             amount := amount }]
        nextId := s.nextId + 1 },
      BidTask.appended user product amount)
  | BidTask.appended user product amount =>
    ({ s with products := setCurrentBid s.products product._id amount },
      BidTask.priced user product amount)
  | BidTask.priced _ product _ =>
    ({ s with
        notifications := s.notifications ++ [{ userId := product.farmerId, type := "BID" }] },
      BidTask.answered (Response.redirect "/buyer/products?msg=Bid+Placed+Successfully"))
  | BidTask.answered response => (s, BidTask.answered response)

/-- Two handlers served together: each entry of the schedule names the handler that
takes the next step, `false` the first and `true` the second. -/
def interleave [LinearOrder R] (s : Store R) (first second : BidTask R) :
    List Bool → Store R × BidTask R × BidTask R
  | [] => (s, first, second)
  | false :: schedule =>
    interleave (advance s first).1 (advance s first).2 second schedule
  | true :: schedule =>
    interleave (advance s second).1 first (advance s second).2 schedule

/-- The schedule that lets the first handler finish before the second starts. -/
def oneAfterAnother : List Bool :=
  List.replicate 5 false ++ List.replicate 5 true

/-- A schedule that lets the two handlers take their steps in turn. -/
def inTurn : List Bool :=
  [false, true, false, true, false, true, false, true, false, true]

/-- Every line of every cart asks for a positive quantity. -/
def CartsPositive [LinearOrderedRing R] (carts : List (Cart R)) : Prop :=
  ∀ cart ∈ carts, ∀ item ∈ cart.items, 0 < item.quantity

/-- From one state of the products collection to another no listing was lost and no
listing's stock was raised. -/
def StockNotRaised [LinearOrderedRing R] (before after : List (Product R)) : Prop :=
  ∀ id p, findProductById before id = some p →
    ∃ p', findProductById after id = some p' ∧ p'.quantity ≤ p.quantity

end DerivedMore

/-! ## Concrete data for the scenarios -/

/-- Buyer A of the scenarios. -/
def buyerA : SessionUser := { _id := 20, role := "buyer" }

/-- Buyer B of the scenarios. -/
def buyerB : SessionUser := { _id := 21, role := "buyer" }

/-- The seller who owns the scenario listing. -/
def farmerOwner : SessionUser := { _id := 10, role := "farmer" }

/-- A seller who does not own the scenario listing. -/
def farmerOther : SessionUser := { _id := 11, role := "farmer" }

/-- The scenario listing right after add-product with price 100. -/
def listing100 : Product ℤ :=
  { _id := 1, farmerId := 10, basePrice := 100, currentBid := 100, quantity := 1 }

/-- A store holding the scenario listing and nothing else. -/
def store100 : Store ℤ := { products := [listing100], nextId := 2 }

/-- The scenario listing after it was sold at 100. -/
def listingSold : Product ℤ :=
  { listing100 with status := ProductStatus.SOLD, winner := some 21 }

/-- A store holding the sold listing. -/
def storeSold : Store ℤ := { products := [listingSold], nextId := 2 }

/-- The scenario of the spec before the cancellation: on the listing of base price 100,
A has bid 120 and B has then tried 110. -/
def storeScenario : Store ℤ :=
  (place_bid (place_bid store100 (some buyerA) 1 (some 120)).2 (some buyerB) 1 (some 110)).2

/-- The scenario listing while A's bid of 120 stands. -/
def listing120 : Product ℤ := { listing100 with currentBid := 120 }

/-- A's bid of 120 in the scenario. -/
def bidA120 : Bid ℤ := { _id := 2, productId := 1, buyerId := 20, amount := 120 }

/-- A run of the engine on the scenario listing: A bids 120, B's 110 is too low, B bids
130 and cancels it, and the owner accepts the highest bid. -/
def scenarioOps : List (Op ℤ) :=
  [Op.place_bid (some buyerA) 1 (some 120), Op.place_bid (some buyerB) 1 (some 110),
   Op.place_bid (some buyerB) 1 (some 130), Op.cancel_bid (some buyerB) 3,
   Op.accept_highest_bid (some farmerOwner) 1]

/-- A listing that add-product created with the negative price -10. -/
def listingNegative : Product ℤ :=
  { _id := 1, farmerId := 10, basePrice := -10, currentBid := -10, quantity := 1 }

/-- A store holding the negative-priced listing. -/
def storeNegative : Store ℤ := { products := [listingNegative], nextId := 2 }

/-- An admin session. -/
def adminUser : SessionUser := { _id := 1, role := "admin" }

/-- A fixed-price listing with stock 2. -/
def fixedStock2 : Product ℤ :=
  { _id := 5, farmerId := 10, basePrice := 30, currentBid := 30, quantity := 2,
    listingType := ListingType.FIXED }

/-- A fixed-price listing with stock 5. -/
def fixedStock5 : Product ℤ :=
  { _id := 6, farmerId := 10, basePrice := 7, currentBid := 7, quantity := 5,
    listingType := ListingType.FIXED }

/-- A store with the two fixed-price listings and buyer A's cart of two lines: 3 units of
the listing with stock 2, and 2 units of the listing with stock 5. -/
def storeCart : Store ℤ :=
  { products := [fixedStock2, fixedStock5]
    carts := [{ buyer := 20,
                items := [{ product := 5, quantity := 3 }, { product := 6, quantity := 2 }] }]
    nextId := 7 }

/-- The cart scenario after buyer A's checkout. -/
def storeCheckedOut : Store ℤ := (checkout storeCart (some buyerA)).2

/-- The bidding scenario after the owner has accepted A's bid of 120. -/
def storeAccepted : Store ℤ := (accept_highest_bid storeScenario (some farmerOwner) 1).2

/-- A store with one Delivered order of buyer A from the owner. -/
def storeDelivered : Store ℤ :=
  { products := [fixedStock5]
    orders := [{ _id := 7, productId := 6, buyerId := 20, farmerId := 10, finalPrice := 14,
                 status := "Delivered" }]
    nextId := 8 }

/-- Requests made on the bidding scenario after the sale: B bids 130, A cancels the order
of the sale, A checks out, the owner sells again, B cancels the new bid. -/
def requestsAfterSale : List (Request ℤ) :=
  [Request.place_bid (some buyerB) 1 (some 130), Request.cancel_order_buyer (some buyerA) 3,
   Request.checkout (some buyerA), Request.accept_highest_bid (some farmerOwner) 1,
   Request.cancel_order_farmer (some farmerOwner) 3, Request.cancel_bid (some buyerB) 4]

/-- A store with the fixed-price listing of stock 5 and no cart. -/
def storeNoCart : Store ℤ := { products := [fixedStock5], nextId := 7 }

/-- The store after buyer A has added the parsed quantity -2 of that listing to the cart. -/
def storeNegativeLine : Store ℤ :=
  (add_to_cart (fun n => toString n) storeNoCart (some buyerA) 6 (some (-2))).2

/-- A fixed-price listing that add-product created with the quantity -3. -/
def fixedNegativeStock : Product ℤ :=
  { _id := 8, farmerId := 10, basePrice := 100, currentBid := 100, quantity := -3,
    listingType := ListingType.FIXED }

/-- The store in which buyer A has bid 120 on that listing and the owner has accepted the
bid: the listing is SOLD with stock -3 and the sale made Order 10. -/
def storeNegativeSold : Store ℤ :=
  (accept_highest_bid
    (place_bid { products := [fixedNegativeStock], nextId := 9 } (some buyerA) 8
      (some 120)).2
    (some farmerOwner) 8).2

/-- A store with a CLOSED fixed-price listing of stock 3 and a Pending order on it. -/
def storeClosed : Store ℤ :=
  { products := [{ fixedStock5 with quantity := 3, status := ProductStatus.CLOSED }]
    orders := [{ _id := 7, productId := 6, buyerId := 20, farmerId := 10, finalPrice := 14 }]
    nextId := 8 }

/-- A store with the fixed-price listing of stock 5 and price 7 and buyer A's cart of one
line, 2 units of it. -/
def storeOneLine : Store ℤ :=
  { products := [fixedStock5]
    carts := [{ buyer := 20, items := [{ product := 6, quantity := 2 }] }]
    nextId := 7 }

/-- A fixed-price listing of stock 5 whose current bid is 0 and whose base price is 50. -/
def fixedZeroBid : Product ℤ :=
  { _id := 6, farmerId := 10, basePrice := 50, currentBid := 0, quantity := 5,
    listingType := ListingType.FIXED }

/-- A store with that listing and buyer A's cart of one line, 2 units of it. -/
def storeZeroBid : Store ℤ :=
  { products := [fixedZeroBid]
    carts := [{ buyer := 20, items := [{ product := 6, quantity := 2 }] }]
    nextId := 7 }

/-! ## Facts about the collection primitives -/

section CollectionFacts

variable {R : Type}

theorem findProductById_id {ps : List (Product R)} {id : Nat} {p : Product R}
    (h : findProductById ps id = some p) : p._id = id := by
  have := List.find?_some h
  simpa using this

theorem findProductById_mem {ps : List (Product R)} {id : Nat} {p : Product R}
    (h : findProductById ps id = some p) : p ∈ ps :=
  List.mem_of_find?_eq_some h

theorem findProductById_saveProduct_of_ne (ps : List (Product R)) (p : Product R) (id : Nat)
    (h : id ≠ p._id) : findProductById (saveProduct ps p) id = findProductById ps id := by
  induction ps with
  | nil => rfl
  | cons q qs ih =>
    unfold saveProduct
    by_cases hq : q._id = p._id
    · have h1 : ¬ q._id = id := fun e => h (e.symm.trans hq)
      have h2 : ¬ p._id = id := fun e => h e.symm
      simp [findProductById, hq, h2]
    · rw [if_neg hq]
      by_cases hid : q._id = id
      · simp [findProductById, hid]
      · simpa [findProductById, hid] using ih

theorem findProductById_saveProduct_self (ps : List (Product R)) (p q : Product R)
    (h : findProductById ps p._id = some q) :
    findProductById (saveProduct ps p) p._id = some p := by
  induction ps with
  | nil => simp [findProductById] at h
  | cons r rs ih =>
    unfold saveProduct
    by_cases hr : r._id = p._id
    · simp [findProductById, hr]
    · rw [if_neg hr]
      have h' : findProductById rs p._id = some q := by
        simpa [findProductById, hr] using h
      simpa [findProductById, hr] using ih h'

theorem saveProduct_map_id (ps : List (Product R)) (p : Product R) :
    (saveProduct ps p).map (fun q => q._id) = ps.map (fun q => q._id) := by
  induction ps with
  | nil => rfl
  | cons r rs ih =>
    unfold saveProduct
    by_cases hr : r._id = p._id
    · rw [if_pos hr]; simp [hr]
    · rw [if_neg hr]; simp [ih]

theorem saveProduct_filter_ne (ps : List (Product R)) (p : Product R) :
    (saveProduct ps p).filter (fun q => q._id ≠ p._id) =
      ps.filter (fun q => q._id ≠ p._id) := by
  induction ps with
  | nil => rfl
  | cons r rs ih =>
    unfold saveProduct
    by_cases hr : r._id = p._id
    · rw [if_pos hr]; simp [hr]
    · rw [if_neg hr]; simpa [hr] using ih

theorem findBidOfBuyer_some {bids : List (Bid R)} {id buyerId : Nat} {b : Bid R}
    (h : findBidOfBuyer bids id buyerId = some b) :
    b ∈ bids ∧ b._id = id ∧ b.buyerId = buyerId := by
  have h1 := List.find?_some h
  have h2 : b ∈ bids := List.mem_of_find?_eq_some h
  simp at h1
  exact ⟨h2, h1.1, h1.2⟩

theorem findBidOfBuyer_eq_none_iff (bids : List (Bid R)) (id buyerId : Nat) :
    findBidOfBuyer bids id buyerId = none ↔
      ∀ b ∈ bids, b._id = id → b.buyerId ≠ buyerId := by
  simp [findBidOfBuyer]

/-- With unique ids, `deleteOne` by the id of a stored bid takes out that very bid. -/
theorem deleteBid_split {bids : List (Bid R)} {bid : Bid R} (hmem : bid ∈ bids)
    (hids : (bids.map (fun b => b._id)).Nodup) :
    ∃ before after, bids = before ++ bid :: after ∧
      deleteBid bids bid._id = before ++ after ∧ bid ∉ before ++ after := by
  obtain ⟨a, l₁, l₂, _, hpa, hsplit, herase⟩ :=
    List.exists_of_eraseP (p := fun b : Bid R => b._id == bid._id) hmem (by simp)
  have ha : a ∈ bids := by rw [hsplit]; simp
  have hab : a = bid :=
    List.inj_on_of_nodup_map hids ha hmem (by simpa using hpa)
  subst hab
  refine ⟨l₁, l₂, hsplit, herase, ?_⟩
  intro hin
  have hnd : bids.Nodup := List.Nodup.of_map _ hids
  rw [hsplit] at hnd
  have h3 := List.nodup_middle.mp hnd
  exact (List.nodup_cons.mp h3).1 hin

end CollectionFacts

/-! ## Facts about maxima and the highest bid -/

section MaxFacts

variable {R : Type} [LinearOrder R]

theorem init_le_foldl_max (l : List R) (a : R) : a ≤ l.foldl max a := by
  induction l generalizing a with
  | nil => exact le_refl a
  | cons x xs ih => exact le_trans (le_max_left a x) (ih (max a x))

theorem mem_le_foldl_max (l : List R) (a : R) {x : R} (hx : x ∈ l) : x ≤ l.foldl max a := by
  induction l generalizing a with
  | nil => simp at hx
  | cons y ys ih =>
    rcases List.mem_cons.mp hx with h | h
    · subst h
      exact le_trans (le_max_right a x) (init_le_foldl_max ys (max a x))
    · exact ih (max a y) h

theorem foldl_max_eq_init_or_mem (l : List R) (a : R) :
    l.foldl max a = a ∨ l.foldl max a ∈ l := by
  induction l generalizing a with
  | nil => left; rfl
  | cons y ys ih =>
    have hstep : (y :: ys).foldl max a = ys.foldl max (max a y) := rfl
    rw [hstep]
    rcases ih (max a y) with h | h
    · rw [h]
      rcases max_choice a y with hc | hc
      · left; exact hc
      · right; rw [hc]; exact List.mem_cons_self _ _
    · right; exact List.mem_cons_of_mem _ h

/-- The maximum of a list of amounts is one of them and bounds them all, and these two
facts determine it. -/
theorem maxAmount?_eq_some_iff (l : List R) (m : R) :
    maxAmount? l = some m ↔ m ∈ l ∧ ∀ x ∈ l, x ≤ m := by
  cases l with
  | nil => simp [maxAmount?]
  | cons a as =>
    have hmem : as.foldl max a ∈ a :: as := by
      rcases foldl_max_eq_init_or_mem as a with h | h
      · rw [h]; exact List.mem_cons_self _ _
      · exact List.mem_cons_of_mem _ h
    have hub : ∀ x ∈ a :: as, x ≤ as.foldl max a := by
      intro x hx
      rcases List.mem_cons.mp hx with h | h
      · rw [h]; exact init_le_foldl_max as a
      · exact mem_le_foldl_max as a h
    constructor
    · intro h
      have h' : as.foldl max a = m := by simpa [maxAmount?] using h
      rw [← h']
      exact ⟨hmem, hub⟩
    · rintro ⟨hm, hle⟩
      have : as.foldl max a = m := le_antisymm (hle _ hmem) (hub m hm)
      simp [maxAmount?, this]

theorem findHighestBid_eq_none_iff (bids : List (Bid R)) (productId : Nat) :
    findHighestBid bids productId = none ↔ bidsOfProduct bids productId = [] := by
  unfold findHighestBid
  exact List.argmax_eq_none

theorem findHighestBid_mem {bids : List (Bid R)} {productId : Nat} {b : Bid R}
    (h : findHighestBid bids productId = some b) : b ∈ bids ∧ b.productId = productId := by
  have hm : b ∈ bidsOfProduct bids productId := List.argmax_mem h
  simpa [bidsOfProduct] using hm

theorem findHighestBid_le {bids : List (Bid R)} {productId : Nat} {b : Bid R}
    (h : findHighestBid bids productId = some b) :
    ∀ c ∈ bids, c.productId = productId → c.amount ≤ b.amount := by
  intro c hc hp
  have hm : c ∈ bidsOfProduct bids productId := by simp [bidsOfProduct, hc, hp]
  exact List.le_of_mem_argmax hm h

theorem findHighestBid_amount {bids : List (Bid R)} {productId : Nat} {b : Bid R}
    (h : findHighestBid bids productId = some b) :
    maxAmount? (amountsOfProduct bids productId) = some b.amount := by
  rw [maxAmount?_eq_some_iff]
  constructor
  · exact List.mem_map.mpr ⟨b, List.argmax_mem h, rfl⟩
  · intro x hx
    obtain ⟨c, hc, rfl⟩ := List.mem_map.mp hx
    exact List.le_of_mem_argmax hc h

/-- What the cancellation writes as the new price is the spec's recomputed price. -/
theorem highestBid_price_eq_recomputed (bids : List (Bid R)) (productId : Nat)
    (basePrice : R) :
    (match findHighestBid bids productId with
      | some b => b.amount
      | none => basePrice) =
    recomputedPrice basePrice (amountsOfProduct bids productId) := by
  cases h : findHighestBid bids productId with
  | none =>
    have := (findHighestBid_eq_none_iff bids productId).mp h
    simp [recomputedPrice, amountsOfProduct, this, maxAmount?]
  | some b => simp [recomputedPrice, findHighestBid_amount h]

end MaxFacts

/-! ## Facts about place_bid -/

section PlaceBidFacts

variable {R : Type} [LinearOrder R] [Zero R]

theorem place_bid_invalid (s : Store R) (user : SessionUser) (hrole : user.role = "buyer")
    (productId : Nat) (bidAmount : Option R) (h : bidAmount = none ∨ bidAmount = some 0) :
    place_bid s (some user) productId bidAmount =
      (Response.redirect "/buyer/products?msg=Invalid+Bid+Amount", s) := by
  rcases h with h | h <;> subst h <;> simp [place_bid, isLoggedIn, isBuyer, hrole]

theorem place_bid_too_low (s : Store R) (user : SessionUser) (hrole : user.role = "buyer")
    (productId : Nat) (product : Product R)
    (hfind : findProductById s.products productId = some product)
    (amount : R) (hne : amount ≠ 0) (hle : amount ≤ product.currentBid) :
    place_bid s (some user) productId (some amount) =
      (Response.redirect "/buyer/products?msg=Bid+Too+Low", s) := by
  simp [place_bid, isLoggedIn, isBuyer, hrole, hne, hfind, hle]

theorem place_bid_placed (s : Store R) (user : SessionUser) (hrole : user.role = "buyer")
    (productId : Nat) (product : Product R)
    (hfind : findProductById s.products productId = some product)
    (amount : R) (hne : amount ≠ 0) (hlt : product.currentBid < amount) :
    place_bid s (some user) productId (some amount) =
      (Response.redirect "/buyer/products?msg=Bid+Placed+Successfully",
        bidPlaced s user product amount) := by
  simp [place_bid, isLoggedIn, isBuyer, hrole, hne, hfind, not_le.mpr hlt, bidPlaced]

/-- Whatever the request, place_bid either leaves the store as it was or is an accepted
bid by a buyer on a listing that exists, for a non-zero amount above its price. -/
theorem place_bid_cases (s : Store R) (session : Option SessionUser) (productId : Nat)
    (bidAmount : Option R) :
    ((place_bid s session productId bidAmount).2 = s ∧
      (place_bid s session productId bidAmount).1 ≠
        Response.redirect "/buyer/products?msg=Bid+Placed+Successfully") ∨
    ∃ user product amount, session = some user ∧ user.role = "buyer" ∧
      bidAmount = some amount ∧ amount ≠ 0 ∧
      findProductById s.products productId = some product ∧ product.currentBid < amount ∧
      place_bid s session productId bidAmount =
        (Response.redirect "/buyer/products?msg=Bid+Placed+Successfully",
          bidPlaced s user product amount) := by
  cases session with
  | none => left; simp [place_bid, isLoggedIn]
  | some user =>
    by_cases hrole : user.role = "buyer"
    · cases bidAmount with
      | none => left; simp [place_bid_invalid s user hrole productId none (Or.inl rfl)]
      | some amount =>
        by_cases hz : amount = 0
        · left
          simp [place_bid_invalid s user hrole productId (some amount) (Or.inr (by rw [hz]))]
        · cases hfind : findProductById s.products productId with
          | none => left; simp [place_bid, isLoggedIn, isBuyer, hrole, hz, hfind]
          | some product =>
            by_cases hle : amount ≤ product.currentBid
            · left
              simp [place_bid_too_low s user hrole productId product hfind amount hz hle]
            · right
              exact ⟨user, product, amount, rfl, hrole, rfl, hz, rfl, not_le.mp hle,
                place_bid_placed s user hrole productId product hfind amount hz
                  (not_le.mp hle)⟩
    · left; simp [place_bid, isLoggedIn, isBuyer, hrole]

end PlaceBidFacts

/-! ## The bid arbitration engine: claims C2 to C5 -/

section PlaceBidClaims

variable {R : Type} [LinearOrder R] [Zero R]

/-- C2: for an existing OPEN auction listing and a positive numeric amount, a buyer's
place_bid is accepted if and only if the amount is strictly greater than the listing's
current price; an amount that is not (a tie included) is answered Bid Too Low and leaves
the whole store, so the listing's price and the bid ledger, unchanged; an accepted one
yields the store with the bid committed. -/
theorem place_bid_accepted_iff_above_price (s : Store R) (user : SessionUser)
    (hrole : user.role = "buyer") (productId : Nat) (product : Product R)
    (hfind : findProductById s.products productId = some product)
    (hopen : product.status = ProductStatus.OPEN)
    (hauction : product.listingType = ListingType.AUCTION)
    (amount : R) (hpos : 0 < amount) :
    ((place_bid s (some user) productId (some amount)).1 =
        Response.redirect "/buyer/products?msg=Bid+Placed+Successfully" ↔
      product.currentBid < amount) ∧
    (amount ≤ product.currentBid →
      place_bid s (some user) productId (some amount) =
        (Response.redirect "/buyer/products?msg=Bid+Too+Low", s)) ∧
    (product.currentBid < amount →
      (place_bid s (some user) productId (some amount)).2 =
        bidPlaced s user product amount) := by
  have hne : amount ≠ 0 := ne_of_gt hpos
  refine ⟨?_, ?_, ?_⟩
  · constructor
    · intro h
      by_contra hlt
      rw [place_bid_too_low s user hrole productId product hfind amount hne
        (not_lt.mp hlt)] at h
      simp at h
    · intro hlt
      rw [place_bid_placed s user hrole productId product hfind amount hne hlt]
  · intro hle
    exact place_bid_too_low s user hrole productId product hfind amount hne hle
  · intro hlt
    rw [place_bid_placed s user hrole productId product hfind amount hne hlt]

/-- Witness for C2 on the scenario listing (price 100): the tie 100 is answered Bid Too
Low and changes nothing. -/
theorem place_bid_accepted_iff_above_price_witness :
    (place_bid store100 (some buyerA) 1 (some (100 : ℤ))).1 ≠
        Response.redirect "/buyer/products?msg=Bid+Placed+Successfully" ∧
    place_bid store100 (some buyerA) 1 (some (100 : ℤ)) =
        (Response.redirect "/buyer/products?msg=Bid+Too+Low", store100) :=
  have h := place_bid_accepted_iff_above_price store100 buyerA (by decide) 1 listing100
    (by decide) (by decide) (by decide) (100 : ℤ) (by decide)
  ⟨fun e => absurd (h.1.mp e) (by decide), h.2.1 (by decide)⟩

/-- C3: an accepted place_bid comes from a logged-in user, a numeric amount and an
existing listing; afterwards the ledger is the previous ledger followed by exactly one
new bid carrying that listing, that bidder and that amount, the listing is the previous
document with currentBid set to the amount, and every other listing is unchanged. -/
theorem place_bid_accepted_effect (s : Store R) (session : Option SessionUser)
    (productId : Nat) (bidAmount : Option R)
    (h : (place_bid s session productId bidAmount).1 =
      Response.redirect "/buyer/products?msg=Bid+Placed+Successfully") :
    ∃ user product amount, session = some user ∧ bidAmount = some amount ∧
      findProductById s.products productId = some product ∧
      (place_bid s session productId bidAmount).2.bids =
        s.bids ++ [{ _id := s.nextId, productId := productId, buyerId := user._id,
                     amount := amount }] ∧
      findProductById (place_bid s session productId bidAmount).2.products productId =
        some { product with currentBid := amount } ∧
      (∀ id, id ≠ productId →
        findProductById (place_bid s session productId bidAmount).2.products id =
          findProductById s.products id) ∧
      (place_bid s session productId bidAmount).2.products.filter
          (fun q => q._id ≠ productId) =
        s.products.filter (fun q => q._id ≠ productId) := by
  rcases place_bid_cases s session productId bidAmount with ⟨_, hno⟩ | hyes
  · exact absurd h hno
  · obtain ⟨user, product, amount, hs, _, ha, _, hfind, _, heq⟩ := hyes
    have hid : product._id = productId := findProductById_id hfind
    refine ⟨user, product, amount, hs, ha, hfind, ?_, ?_, ?_, ?_⟩
    · rw [heq]; simp [bidPlaced, hid]
    · rw [heq]
      have := findProductById_saveProduct_self s.products
        { product with currentBid := amount } product (by simpa [hid] using hfind)
      simpa [bidPlaced, hid] using this
    · intro id hne
      rw [heq]
      exact findProductById_saveProduct_of_ne s.products
        { product with currentBid := amount } id (by simpa [hid] using hne)
    · rw [heq]
      have := saveProduct_filter_ne s.products { product with currentBid := amount }
      simpa [bidPlaced, hid] using this

/-- Witness for C3: buyer A's bid of 120 on the scenario listing. -/
theorem place_bid_accepted_effect_witness :
    ∃ user product amount, some buyerA = some user ∧ some (120 : ℤ) = some amount ∧
      findProductById store100.products 1 = some product ∧
      (place_bid store100 (some buyerA) 1 (some 120)).2.bids =
        store100.bids ++ [{ _id := store100.nextId, productId := 1, buyerId := user._id,
                            amount := amount }] ∧
      findProductById (place_bid store100 (some buyerA) 1 (some 120)).2.products 1 =
        some { product with currentBid := amount } ∧
      (∀ id, id ≠ 1 →
        findProductById (place_bid store100 (some buyerA) 1 (some 120)).2.products id =
          findProductById store100.products id) ∧
      (place_bid store100 (some buyerA) 1 (some 120)).2.products.filter
          (fun q => q._id ≠ 1) =
        store100.products.filter (fun q => q._id ≠ 1) :=
  place_bid_accepted_effect store100 (some buyerA) 1 (some 120) (by decide)

/-- C4 as stated fails: on the SOLD scenario listing (price 100) buyer A's bid of 120 is
accepted, the ledger gains the bid and the price becomes 120. -/
theorem place_bid_on_sold_listing_is_accepted :
    findProductById storeSold.products 1 = some listingSold ∧
    listingSold.status = ProductStatus.SOLD ∧
    (place_bid storeSold (some buyerA) 1 (some 120)).1 =
      Response.redirect "/buyer/products?msg=Bid+Placed+Successfully" ∧
    (place_bid storeSold (some buyerA) 1 (some 120)).2.bids =
      [{ _id := 2, productId := 1, buyerId := 20, amount := 120 }] ∧
    (findProductById (place_bid storeSold (some buyerA) 1 (some 120)).2.products 1).map
      (fun p => p.currentBid) = some 120 := by
  decide

/-- C4 amended: on a listing that is SOLD (or otherwise not OPEN) a buyer's place_bid is
rejected, leaving the store unchanged, when the amount is NaN, zero or not strictly
greater than the current price; the status is not consulted, so a non-zero amount
strictly greater than the current price is accepted and committed. -/
theorem place_bid_not_open_listing (s : Store R) (user : SessionUser)
    (hrole : user.role = "buyer") (productId : Nat) (product : Product R)
    (hfind : findProductById s.products productId = some product)
    (hstatus : product.status ≠ ProductStatus.OPEN) :
    (∀ bidAmount : Option R,
      (bidAmount = none ∨ bidAmount = some 0 ∨
        ∃ a, bidAmount = some a ∧ a ≤ product.currentBid) →
      (place_bid s (some user) productId bidAmount).2 = s ∧
      (place_bid s (some user) productId bidAmount).1 ≠
        Response.redirect "/buyer/products?msg=Bid+Placed+Successfully") ∧
    (∀ a : R, a ≠ 0 → product.currentBid < a →
      place_bid s (some user) productId (some a) =
        (Response.redirect "/buyer/products?msg=Bid+Placed+Successfully",
          bidPlaced s user product a)) := by
  refine ⟨?_, ?_⟩
  · intro bidAmount hb
    rcases hb with hb | hb | ⟨a, hb, hle⟩
    · rw [place_bid_invalid s user hrole productId bidAmount (Or.inl hb)]; simp
    · rw [place_bid_invalid s user hrole productId bidAmount (Or.inr hb)]; simp
    · subst hb
      by_cases hz : a = 0
      · rw [place_bid_invalid s user hrole productId (some a) (Or.inr (by rw [hz]))]; simp
      · rw [place_bid_too_low s user hrole productId product hfind a hz hle]; simp
  · intro a hne hlt
    exact place_bid_placed s user hrole productId product hfind a hne hlt

/-- Witness for C4 amended on the SOLD scenario listing: the tie 100 is rejected. -/
theorem place_bid_not_open_listing_witness :
    listingSold.status ≠ ProductStatus.OPEN ∧
    (place_bid storeSold (some buyerA) 1 (some (100 : ℤ))).2 = storeSold ∧
    (place_bid storeSold (some buyerA) 1 (some (100 : ℤ))).1 ≠
      Response.redirect "/buyer/products?msg=Bid+Placed+Successfully" :=
  ⟨by decide,
    (place_bid_not_open_listing storeSold buyerA (by decide) 1 listingSold (by decide)
      (by decide)).1 (some 100) (Or.inr (Or.inr ⟨100, rfl, by decide⟩))⟩

/-- C5 as stated fails: the negative amount -5 on the scenario listing (price 100) is
answered Bid Too Low, not Invalid Bid Amount; and on a listing priced -10 the same
amount is accepted and a bid is created. -/
theorem place_bid_negative_amount_not_invalid :
    (-5 : ℤ) < 0 ∧
    (place_bid store100 (some buyerA) 1 (some (-5))).1 =
      Response.redirect "/buyer/products?msg=Bid+Too+Low" ∧
    (place_bid store100 (some buyerA) 1 (some (-5))).1 ≠
      Response.redirect "/buyer/products?msg=Invalid+Bid+Amount" ∧
    (place_bid storeNegative (some buyerA) 1 (some (-5))).1 =
      Response.redirect "/buyer/products?msg=Bid+Placed+Successfully" ∧
    (place_bid storeNegative (some buyerA) 1 (some (-5))).2.bids =
      [{ _id := 2, productId := 1, buyerId := 20, amount := -5 }] := by
  decide

/-- C5 amended: a buyer's place_bid with an amount that is NaN or zero fails with
Invalid Bid Amount and changes nothing, whatever the listing and its price; a negative
amount passes that check and, on an existing listing whose current price is not
negative, is answered Bid Too Low and changes nothing. -/
theorem place_bid_invalid_amount (s : Store R) (user : SessionUser)
    (hrole : user.role = "buyer") (productId : Nat) :
    (∀ bidAmount : Option R, (bidAmount = none ∨ bidAmount = some 0) →
      place_bid s (some user) productId bidAmount =
        (Response.redirect "/buyer/products?msg=Invalid+Bid+Amount", s)) ∧
    (∀ (a : R) (product : Product R), a < 0 →
      findProductById s.products productId = some product → 0 ≤ product.currentBid →
      place_bid s (some user) productId (some a) =
        (Response.redirect "/buyer/products?msg=Bid+Too+Low", s)) := by
  refine ⟨?_, ?_⟩
  · intro bidAmount hb
    exact place_bid_invalid s user hrole productId bidAmount hb
  · intro a product ha hfind hprice
    exact place_bid_too_low s user hrole productId product hfind a (ne_of_lt ha)
      (le_trans (le_of_lt ha) hprice)

/-- Witness for C5 amended: NaN and zero on the scenario listing. -/
theorem place_bid_invalid_amount_witness :
    place_bid store100 (some buyerA) 1 (none : Option ℤ) =
      (Response.redirect "/buyer/products?msg=Invalid+Bid+Amount", store100) ∧
    place_bid store100 (some buyerA) 1 (some (0 : ℤ)) =
      (Response.redirect "/buyer/products?msg=Invalid+Bid+Amount", store100) :=
  ⟨(place_bid_invalid_amount store100 buyerA (by decide) 1).1 none (Or.inl rfl),
    (place_bid_invalid_amount store100 buyerA (by decide) 1).1 (some 0) (Or.inr rfl)⟩

end PlaceBidClaims

/-! ## The cancellation reconciler: claims C6 and C7 -/

section CancelBidFacts

variable {R : Type} [LinearOrder R]

theorem cancel_bid_found (s : Store R) (user : SessionUser) (hrole : user.role = "buyer")
    (bidId : Nat) (bid : Bid R) (hbid : findBidOfBuyer s.bids bidId user._id = some bid) :
    cancel_bid s (some user) bidId =
      (Response.redirect "/buyer/bids?msg=Bid+Cancelled", bidCancelled s bid) := by
  unfold bidCancelled
  cases hfind : findProductById s.products bid.productId with
  | none => simp [cancel_bid, isLoggedIn, isBuyer, hrole, hbid, hfind]
  | some product =>
    have hprice := highestBid_price_eq_recomputed (deleteBid s.bids bid._id) bid.productId
      product.basePrice
    simp only [cancel_bid, isLoggedIn, isBuyer, hrole, hbid, hfind]
    cases hhb : findHighestBid (deleteBid s.bids bid._id) bid.productId with
    | none => rw [hhb] at hprice; simp [← hprice]
    | some b => rw [hhb] at hprice; simp [← hprice]

/-- Whatever the request, cancel_bid either leaves the store as it was or is the
cancellation by a buyer of a stored bid of theirs. -/
theorem cancel_bid_cases (s : Store R) (session : Option SessionUser) (bidId : Nat) :
    ((cancel_bid s session bidId).2 = s ∧
      (cancel_bid s session bidId).1 ≠ Response.redirect "/buyer/bids?msg=Bid+Cancelled") ∨
    ∃ user bid, session = some user ∧ user.role = "buyer" ∧
      findBidOfBuyer s.bids bidId user._id = some bid ∧
      cancel_bid s session bidId =
        (Response.redirect "/buyer/bids?msg=Bid+Cancelled", bidCancelled s bid) := by
  cases session with
  | none => left; simp [cancel_bid, isLoggedIn]
  | some user =>
    by_cases hrole : user.role = "buyer"
    · cases hbid : findBidOfBuyer s.bids bidId user._id with
      | none => left; simp [cancel_bid, isLoggedIn, isBuyer, hrole, hbid]
      | some bid =>
        right
        exact ⟨user, bid, rfl, hrole, hbid, cancel_bid_found s user hrole bidId bid hbid⟩
    · left; simp [cancel_bid, isLoggedIn, isBuyer, hrole]

end CancelBidFacts

section CancelBidClaims

variable {R : Type} [LinearOrder R]

/-- C6: when a buyer cancels a stored bid of theirs (ids in the ledger being unique, as
Mongo keeps them), cancel_bid succeeds, the ledger loses exactly that bid, and the bid's
listing becomes the previous document with currentBid set to the maximum amount among
the bids remaining for that listing, or to basePrice when none remain; every other
listing is unchanged. -/
theorem cancel_bid_removes_bid_and_recomputes_price (s : Store R) (user : SessionUser)
    (hrole : user.role = "buyer") (bidId : Nat) (bid : Bid R)
    (hbid : findBidOfBuyer s.bids bidId user._id = some bid)
    (hids : (s.bids.map (fun b => b._id)).Nodup)
    (product : Product R)
    (hfind : findProductById s.products bid.productId = some product) :
    (cancel_bid s (some user) bidId).1 = Response.redirect "/buyer/bids?msg=Bid+Cancelled" ∧
    (∃ before after, s.bids = before ++ bid :: after ∧
      (cancel_bid s (some user) bidId).2.bids = before ++ after ∧
      bid ∉ before ++ after) ∧
    findProductById (cancel_bid s (some user) bidId).2.products bid.productId =
      some { product with
        currentBid := recomputedPrice product.basePrice
          (amountsOfProduct (cancel_bid s (some user) bidId).2.bids bid.productId) } ∧
    (∀ id, id ≠ bid.productId →
      findProductById (cancel_bid s (some user) bidId).2.products id =
        findProductById s.products id) := by
  have hid : product._id = bid.productId := findProductById_id hfind
  rw [cancel_bid_found s user hrole bidId bid hbid]
  have hbc : bidCancelled s bid =
      { s with
        bids := deleteBid s.bids bid._id
        products := saveProduct s.products
          { product with
            currentBid := recomputedPrice product.basePrice
              (amountsOfProduct (deleteBid s.bids bid._id) bid.productId) } } := by
    simp [bidCancelled, hfind]
  rw [hbc]
  refine ⟨rfl, ?_, ?_, ?_⟩
  · exact deleteBid_split (findBidOfBuyer_some hbid).1 hids
  · have := findProductById_saveProduct_self s.products
      { product with
        currentBid := recomputedPrice product.basePrice
          (amountsOfProduct (deleteBid s.bids bid._id) bid.productId) } product
      (by simpa [hid] using hfind)
    simpa [hid] using this
  · intro id hne
    exact findProductById_saveProduct_of_ne s.products _ id (by simpa [hid] using hne)

/-- Witness for C6, the scenario of the spec: base price 100, A bids 120, B's 110 is
answered Bid Too Low, A cancels, and the price is 100 again with an empty ledger. -/
theorem cancel_bid_removes_bid_and_recomputes_price_witness :
    (place_bid (place_bid store100 (some buyerA) 1 (some 120)).2 (some buyerB) 1
        (some 110)).1 = Response.redirect "/buyer/products?msg=Bid+Too+Low" ∧
    storeScenario.bids = [bidA120] ∧
    findProductById storeScenario.products 1 = some listing120 ∧
    (cancel_bid storeScenario (some buyerA) 2).2.bids = [] ∧
    findProductById (cancel_bid storeScenario (some buyerA) 2).2.products 1 =
      some listing100 := by
  have h := cancel_bid_removes_bid_and_recomputes_price storeScenario buyerA (by decide) 2
    bidA120 (by decide) (by decide) listing120 (by decide)
  refine ⟨by decide, by decide, by decide, by decide, ?_⟩
  have h3 := h.2.2.1
  have hprice : recomputedPrice listing120.basePrice
      (amountsOfProduct (cancel_bid storeScenario (some buyerA) 2).2.bids
        bidA120.productId) = 100 := by decide
  rw [hprice] at h3
  exact h3

/-- C7: when no stored bid has both the requested id and the requester as its bidder
(the bid does not exist, or it is somebody else's), cancel_bid fails and leaves the
whole store, so the bid ledger and every listing's currentBid, unchanged; a buyer is
answered Bid Not Found. -/
theorem cancel_bid_not_own_fails (s : Store R) (user : SessionUser) (bidId : Nat)
    (h : ∀ b ∈ s.bids, b._id = bidId → b.buyerId ≠ user._id) :
    (cancel_bid s (some user) bidId).2 = s ∧
    (cancel_bid s (some user) bidId).1 ≠ Response.redirect "/buyer/bids?msg=Bid+Cancelled" ∧
    (user.role = "buyer" →
      (cancel_bid s (some user) bidId).1 =
        Response.redirect "/buyer/bids?msg=Bid+Not+Found") := by
  have hnone := (findBidOfBuyer_eq_none_iff s.bids bidId user._id).mpr h
  by_cases hrole : user.role = "buyer"
  · simp [cancel_bid, isLoggedIn, isBuyer, hrole, hnone]
  · simp [cancel_bid, isLoggedIn, isBuyer, hrole]

/-- Witness for C7: in the scenario, B asks to cancel A's bid. -/
theorem cancel_bid_not_own_fails_witness :
    findBidOfBuyer storeScenario.bids 2 buyerA._id = some bidA120 ∧
    (cancel_bid storeScenario (some buyerB) 2).2 = storeScenario ∧
    (cancel_bid storeScenario (some buyerB) 2).1 =
      Response.redirect "/buyer/bids?msg=Bid+Not+Found" :=
  have h := cancel_bid_not_own_fails storeScenario buyerB 2 (by decide)
  ⟨by decide, h.1, h.2.2 (by decide)⟩

end CancelBidClaims

/-! ## The fulfillment workflow, auction path: claims C8 to C10 -/

section SellFacts

variable {R : Type} [LinearOrder R]

/-- Whatever the request, accept_highest_bid either leaves the store as it was or is the
sale, by a farmer session, of an existing listing to the bidder of its highest bid. -/
theorem accept_highest_bid_cases (s : Store R) (session : Option SessionUser)
    (productId : Nat) :
    ((accept_highest_bid s session productId).2 = s ∧
      (accept_highest_bid s session productId).1 ≠ Response.redirect "/farmer/orders") ∨
    ∃ user product highestBid, session = some user ∧ user.role = "farmer" ∧
      findProductById s.products productId = some product ∧
      findHighestBid s.bids productId = some highestBid ∧
      accept_highest_bid s session productId =
        (Response.redirect "/farmer/orders", productSold s user product highestBid) := by
  cases session with
  | none => left; simp [accept_highest_bid, isLoggedIn]
  | some user =>
    by_cases hrole : user.role = "farmer"
    · cases hfind : findProductById s.products productId with
      | none => left; simp [accept_highest_bid, isLoggedIn, isFarmer, hrole, hfind]
      | some product =>
        have hid : product._id = productId := findProductById_id hfind
        cases hhb : findHighestBid s.bids productId with
        | none =>
          left; simp [accept_highest_bid, isLoggedIn, isFarmer, hrole, hfind, hid, hhb]
        | some highestBid =>
          right
          refine ⟨user, product, highestBid, rfl, hrole, rfl, rfl, ?_⟩
          simp [accept_highest_bid, isLoggedIn, isFarmer, hrole, hfind, hid, hhb,
            productSold]
    · left; simp [accept_highest_bid, isLoggedIn, isFarmer, hrole]

end SellFacts

section SellClaims

variable {R : Type} [LinearOrder R]

/-- C8: on a listing for which the ledger holds no bid, accept_highest_bid fails and
leaves the whole store unchanged: no Order is created and the listing keeps its status,
winner and price; a farmer is sent back to the product list. -/
theorem accept_highest_bid_without_bids_fails (s : Store R) (session : Option SessionUser)
    (productId : Nat) (h : bidsOfProduct s.bids productId = []) :
    (accept_highest_bid s session productId).2 = s ∧
    (accept_highest_bid s session productId).1 ≠ Response.redirect "/farmer/orders" ∧
    (∀ user, session = some user → user.role = "farmer" →
      (accept_highest_bid s session productId).1 = Response.redirect "/farmer/products") := by
  have hnone := (findHighestBid_eq_none_iff s.bids productId).mpr h
  rcases accept_highest_bid_cases s session productId with ⟨h1, h2⟩ | hyes
  · refine ⟨h1, h2, ?_⟩
    intro user hs hrole
    subst hs
    cases hfind : findProductById s.products productId with
    | none => simp [accept_highest_bid, isLoggedIn, isFarmer, hrole, hfind]
    | some product =>
      have hid : product._id = productId := findProductById_id hfind
      simp [accept_highest_bid, isLoggedIn, isFarmer, hrole, hfind, hid, hnone]
  · obtain ⟨_, _, highestBid, _, _, _, hhb, _⟩ := hyes
    rw [hnone] at hhb
    exact absurd hhb (by simp)

/-- Witness for C8: the owner tries to sell the scenario listing before any bid. -/
theorem accept_highest_bid_without_bids_fails_witness :
    (accept_highest_bid store100 (some farmerOwner) 1).2 = store100 ∧
    (accept_highest_bid store100 (some farmerOwner) 1).1 =
      Response.redirect "/farmer/products" :=
  have h := accept_highest_bid_without_bids_fails store100 (some farmerOwner) 1 (by decide)
  ⟨h.1, h.2.2 farmerOwner rfl (by decide)⟩

/-- C9: a successful accept_highest_bid was asked by a logged-in user on an existing
listing that has a bid of maximum amount; afterwards the listing is the previous
document with status SOLD and that bid's bidder as winner, and the orders are the
previous orders followed by exactly one new Order whose buyer is that bidder and whose
finalPrice is that maximum amount; the ledger is untouched. -/
theorem accept_highest_bid_success_effect (s : Store R) (session : Option SessionUser)
    (productId : Nat)
    (h : (accept_highest_bid s session productId).1 = Response.redirect "/farmer/orders") :
    ∃ user product highestBid, session = some user ∧
      findProductById s.products productId = some product ∧
      highestBid ∈ s.bids ∧ highestBid.productId = productId ∧
      (∀ b ∈ s.bids, b.productId = productId → b.amount ≤ highestBid.amount) ∧
      findProductById (accept_highest_bid s session productId).2.products productId =
        some { product with
          status := ProductStatus.SOLD, winner := some highestBid.buyerId } ∧
      (accept_highest_bid s session productId).2.orders =
        s.orders ++
          [{ _id := s.nextId, productId := productId, buyerId := highestBid.buyerId,
             farmerId := user._id, finalPrice := highestBid.amount }] ∧
      (accept_highest_bid s session productId).2.bids = s.bids := by
  rcases accept_highest_bid_cases s session productId with ⟨_, hno⟩ | hyes
  · exact absurd h hno
  · obtain ⟨user, product, highestBid, hs, _, hfind, hhb, heq⟩ := hyes
    have hid : product._id = productId := findProductById_id hfind
    have hmem := findHighestBid_mem hhb
    refine ⟨user, product, highestBid, hs, hfind, hmem.1, hmem.2, findHighestBid_le hhb,
      ?_, ?_, ?_⟩
    · rw [heq]
      have := findProductById_saveProduct_self s.products
        { product with status := ProductStatus.SOLD, winner := some highestBid.buyerId }
        product (by simpa [hid] using hfind)
      simpa [productSold, hid] using this
    · rw [heq]; simp [productSold, hid]
    · rw [heq]; simp [productSold]

/-- Witness for C9: the owner sells the scenario listing while A's bid of 120 stands:
the listing is SOLD to A and one Order at 120 is created. -/
theorem accept_highest_bid_success_effect_witness :
    findProductById (accept_highest_bid storeScenario (some farmerOwner) 1).2.products 1 =
      some { listing120 with status := ProductStatus.SOLD, winner := some 20 } ∧
    (accept_highest_bid storeScenario (some farmerOwner) 1).2.orders =
      [{ _id := 3, productId := 1, buyerId := 20, farmerId := 10, finalPrice := 120 }] ∧
    ∃ user product highestBid, some farmerOwner = some user ∧
      findProductById storeScenario.products 1 = some product ∧
      highestBid ∈ storeScenario.bids ∧ highestBid.productId = 1 ∧
      (∀ b ∈ storeScenario.bids, b.productId = 1 → b.amount ≤ highestBid.amount) ∧
      findProductById (accept_highest_bid storeScenario (some farmerOwner) 1).2.products 1 =
        some { product with
          status := ProductStatus.SOLD, winner := some highestBid.buyerId } ∧
      (accept_highest_bid storeScenario (some farmerOwner) 1).2.orders =
        storeScenario.orders ++
          [{ _id := storeScenario.nextId, productId := 1, buyerId := highestBid.buyerId,
             farmerId := user._id, finalPrice := highestBid.amount }] ∧
      (accept_highest_bid storeScenario (some farmerOwner) 1).2.bids = storeScenario.bids :=
  ⟨by decide, by decide,
    accept_highest_bid_success_effect storeScenario (some farmerOwner) 1 (by decide)⟩

/-- C10, the code at the failing input: a farmer who does not own the scenario listing
asks to sell it while A's bid of 120 stands, and the sale goes through: the listing
becomes SOLD with A as winner and an Order is created in the name of the non-owner. -/
theorem accept_highest_bid_by_non_owner_succeeds :
    findProductById storeScenario.products 1 = some listing120 ∧
    listing120.farmerId ≠ farmerOther._id ∧
    (accept_highest_bid storeScenario (some farmerOther) 1).1 =
      Response.redirect "/farmer/orders" ∧
    findProductById (accept_highest_bid storeScenario (some farmerOther) 1).2.products 1 =
      some { listing120 with status := ProductStatus.SOLD, winner := some 20 } ∧
    (accept_highest_bid storeScenario (some farmerOther) 1).2.orders =
      [{ _id := 3, productId := 1, buyerId := 20, farmerId := 11, finalPrice := 120 }] := by
  decide

end SellClaims

/-! ## The price invariant: claim C1 -/

section InvariantFacts

variable {R : Type}

theorem recomputedPrice_eq_bestPrice [LinearOrder R] (basePrice : R) (l : List R)
    (h : ∀ x ∈ l, basePrice ≤ x) : recomputedPrice basePrice l = bestPrice basePrice l := by
  cases l with
  | nil => rfl
  | cons a as =>
    have ha : basePrice ≤ a := h a (List.mem_cons_self _ _)
    simp [recomputedPrice, maxAmount?, bestPrice, max_eq_right ha]

theorem amountsOfProduct_append (l₁ l₂ : List (Bid R)) (productId : Nat) :
    amountsOfProduct (l₁ ++ l₂) productId =
      amountsOfProduct l₁ productId ++ amountsOfProduct l₂ productId := by
  simp [amountsOfProduct, bidsOfProduct]

theorem amountsOfProduct_cons_of_ne (b : Bid R) (l : List (Bid R)) (productId : Nat)
    (h : b.productId ≠ productId) :
    amountsOfProduct (b :: l) productId = amountsOfProduct l productId := by
  simp [amountsOfProduct, bidsOfProduct, h]

theorem amountsOfProduct_cons_of_eq (b : Bid R) (l : List (Bid R)) (productId : Nat)
    (h : b.productId = productId) :
    amountsOfProduct (b :: l) productId = b.amount :: amountsOfProduct l productId := by
  simp [amountsOfProduct, bidsOfProduct, h]

theorem ledgerOk_bidPlaced (s : Store R) (user : SessionUser) (product : Product R)
    (amount : R) (h : LedgerOk s) : LedgerOk (bidPlaced s user product amount) := by
  obtain ⟨hnd, hlt⟩ := h
  constructor
  · simp only [bidPlaced, List.map_append, List.map_cons, List.map_nil]
    rw [List.nodup_append]
    refine ⟨hnd, List.nodup_singleton _, ?_⟩
    intro a ha hb
    obtain ⟨b, hbm, rfl⟩ := List.mem_map.mp ha
    have h1 := hlt b hbm
    have h2 : b._id = s.nextId := by simpa using hb
    omega
  · intro b hb
    simp only [bidPlaced, List.mem_append, List.mem_singleton] at hb ⊢
    rcases hb with hb | hb
    · have := hlt b hb; omega
    · subst hb; simp

theorem priceOk_bidPlaced [LinearOrder R] (s : Store R) (user : SessionUser) (productId' : Nat)
    (product : Product R) (amount : R)
    (hfind : findProductById s.products productId' = some product)
    (hlt : product.currentBid < amount) (productId : Nat) (basePrice : R)
    (h : PriceOk s productId basePrice) :
    PriceOk (bidPlaced s user product amount) productId basePrice := by
  obtain ⟨p, hp, hbase, hprice, hge⟩ := h
  have hid : product._id = productId' := findProductById_id hfind
  by_cases hsame : productId' = productId
  · subst hsame
    have hpp : product = p := Option.some.inj (hfind.symm.trans hp)
    subst hpp
    have hba : basePrice ≤ amount := by
      have h1 : basePrice ≤ product.currentBid := by
        rw [hprice]; exact init_le_foldl_max _ _
      exact le_trans h1 (le_of_lt hlt)
    refine ⟨{ product with currentBid := amount }, ?_, hbase, ?_, ?_⟩
    · have := findProductById_saveProduct_self s.products
        { product with currentBid := amount } product (by simpa [hid] using hfind)
      simpa [bidPlaced, hid] using this
    · have hnew : amountsOfProduct
          (s.bids ++ [{ _id := s.nextId, productId := product._id, buyerId := user._id,
                        amount := amount }]) productId' =
          amountsOfProduct s.bids productId' ++ [amount] := by
        rw [amountsOfProduct_append, amountsOfProduct_cons_of_eq _ _ _ hid]
        rfl
      show amount = bestPrice basePrice (amountsOfProduct (s.bids ++ _) productId')
      rw [hnew]
      simp only [bestPrice, List.foldl_append, List.foldl_cons, List.foldl_nil]
      have : List.foldl max basePrice (amountsOfProduct s.bids productId') =
          product.currentBid := hprice.symm
      rw [this, max_eq_right (le_of_lt hlt)]
    · intro b hb hbp
      simp only [bidPlaced, List.mem_append, List.mem_singleton] at hb
      rcases hb with hb | hb
      · exact hge b hb hbp
      · subst hb; exact hba
  · have hne : productId ≠
        ({ product with currentBid := amount } : Product R)._id := by
      simpa [hid] using Ne.symm hsame
    refine ⟨p, ?_, hbase, ?_, ?_⟩
    · show findProductById (saveProduct s.products _) productId = some p
      rw [findProductById_saveProduct_of_ne s.products _ productId hne]
      exact hp
    · have hnew : amountsOfProduct
          (s.bids ++ [{ _id := s.nextId, productId := product._id, buyerId := user._id,
                        amount := amount }]) productId =
          amountsOfProduct s.bids productId := by
        rw [amountsOfProduct_append, amountsOfProduct_cons_of_ne _ _ _ (by simpa [hid] using hsame)]
        simp [amountsOfProduct, bidsOfProduct]
      show p.currentBid = bestPrice basePrice (amountsOfProduct (s.bids ++ _) productId)
      rw [hnew]
      exact hprice
    · intro b hb hbp
      simp only [bidPlaced, List.mem_append, List.mem_singleton] at hb
      rcases hb with hb | hb
      · exact hge b hb hbp
      · subst hb
        exact absurd (hid.symm.trans hbp) hsame

theorem deleteBid_subset (bids : List (Bid R)) (id : Nat) :
    ∀ b ∈ deleteBid bids id, b ∈ bids := fun _ hb =>
  (List.eraseP_sublist bids).subset hb

theorem bidCancelled_bids [LinearOrder R] (s : Store R) (bid : Bid R) :
    (bidCancelled s bid).bids = deleteBid s.bids bid._id ∧
    (bidCancelled s bid).nextId = s.nextId := by
  unfold bidCancelled
  cases findProductById s.products bid.productId <;> exact ⟨rfl, rfl⟩

theorem ledgerOk_bidCancelled [LinearOrder R] (s : Store R) (bid : Bid R) (h : LedgerOk s) :
    LedgerOk (bidCancelled s bid) := by
  obtain ⟨hnd, hlt⟩ := h
  obtain ⟨hb, hn⟩ := bidCancelled_bids s bid
  unfold LedgerOk
  rw [hb, hn]
  constructor
  · exact List.Nodup.sublist (List.Sublist.map _ (List.eraseP_sublist s.bids)) hnd
  · intro b hbm
    exact hlt b (deleteBid_subset s.bids bid._id b hbm)

theorem priceOk_bidCancelled [LinearOrder R] (s : Store R) (bid : Bid R) (hmem : bid ∈ s.bids)
    (hids : (s.bids.map (fun b => b._id)).Nodup) (productId : Nat) (basePrice : R)
    (h : PriceOk s productId basePrice) :
    PriceOk (bidCancelled s bid) productId basePrice := by
  obtain ⟨p, hp, hbase, hprice, hge⟩ := h
  have hge' : ∀ b ∈ deleteBid s.bids bid._id, b.productId = productId →
      basePrice ≤ b.amount := fun b hb hbp =>
    hge b (deleteBid_subset s.bids bid._id b hb) hbp
  by_cases hsame : bid.productId = productId
  · have hfind : findProductById s.products bid.productId = some p := by rw [hsame]; exact hp
    have hid : p._id = bid.productId := findProductById_id hfind
    have hbc : bidCancelled s bid =
        { s with
          bids := deleteBid s.bids bid._id
          products := saveProduct s.products
            { p with
              currentBid := recomputedPrice p.basePrice
                (amountsOfProduct (deleteBid s.bids bid._id) bid.productId) } } := by
      simp [bidCancelled, hfind]
    rw [hbc]
    refine ⟨{ p with
        currentBid := recomputedPrice p.basePrice
          (amountsOfProduct (deleteBid s.bids bid._id) bid.productId) }, ?_, hbase, ?_, hge'⟩
    · have := findProductById_saveProduct_self s.products
        { p with
          currentBid := recomputedPrice p.basePrice
            (amountsOfProduct (deleteBid s.bids bid._id) bid.productId) } p
        (by simpa [hid] using hfind)
      simpa [hid, hsame] using this
    · show recomputedPrice p.basePrice
          (amountsOfProduct (deleteBid s.bids bid._id) bid.productId) =
        bestPrice basePrice (amountsOfProduct (deleteBid s.bids bid._id) productId)
      rw [hbase, hsame]
      apply recomputedPrice_eq_bestPrice
      intro x hx
      obtain ⟨b, hb, rfl⟩ := List.mem_map.mp hx
      have hb' : b ∈ deleteBid s.bids bid._id ∧ b.productId = productId := by
        simpa [bidsOfProduct] using hb
      exact hge' b hb'.1 hb'.2
  · obtain ⟨before, after, hsplit, herase, _⟩ := deleteBid_split hmem hids
    have hamounts : amountsOfProduct (deleteBid s.bids bid._id) productId =
        amountsOfProduct s.bids productId := by
      rw [herase, hsplit, amountsOfProduct_append, amountsOfProduct_append,
        amountsOfProduct_cons_of_ne bid after productId hsame]
    have hbids := (bidCancelled_bids s bid).1
    refine ⟨p, ?_, hbase, ?_, ?_⟩
    · unfold bidCancelled
      cases hfind : findProductById s.products bid.productId with
      | none => exact hp
      | some product =>
        have hid : product._id = bid.productId := findProductById_id hfind
        show findProductById (saveProduct s.products _) productId = some p
        rw [findProductById_saveProduct_of_ne s.products _ productId
          (by simpa [hid] using Ne.symm hsame)]
        exact hp
    · rw [hbids, hamounts]; exact hprice
    · rw [hbids]; exact hge'

theorem ledgerOk_productSold (s : Store R) (user : SessionUser) (product : Product R)
    (highestBid : Bid R) (h : LedgerOk s) :
    LedgerOk (productSold s user product highestBid) := by
  obtain ⟨hnd, hlt⟩ := h
  refine ⟨hnd, ?_⟩
  intro b hb
  have := hlt b hb
  show b._id < s.nextId + 1
  omega

theorem priceOk_productSold [LinearOrder R] (s : Store R) (user : SessionUser) (productId' : Nat)
    (product : Product R) (highestBid : Bid R)
    (hfind : findProductById s.products productId' = some product)
    (productId : Nat) (basePrice : R) (h : PriceOk s productId basePrice) :
    PriceOk (productSold s user product highestBid) productId basePrice := by
  obtain ⟨p, hp, hbase, hprice, hge⟩ := h
  have hid : product._id = productId' := findProductById_id hfind
  by_cases hsame : productId' = productId
  · subst hsame
    have hpp : product = p := Option.some.inj (hfind.symm.trans hp)
    subst hpp
    refine ⟨{ product with
        status := ProductStatus.SOLD, winner := some highestBid.buyerId }, ?_, hbase,
      hprice, hge⟩
    have := findProductById_saveProduct_self s.products
      { product with status := ProductStatus.SOLD, winner := some highestBid.buyerId }
      product (by simpa [hid] using hfind)
    simpa [productSold, hid] using this
  · refine ⟨p, ?_, hbase, hprice, hge⟩
    show findProductById (saveProduct s.products _) productId = some p
    rw [findProductById_saveProduct_of_ne s.products _ productId
      (by simpa [hid] using Ne.symm hsame)]
    exact hp

/-- Serving one request keeps the ledger well formed and the price invariant of every
listing that had it. -/
theorem step_preserves [LinearOrder R] [Zero R] (s : Store R) (op : Op R) (productId : Nat) (basePrice : R)
    (h : LedgerOk s ∧ PriceOk s productId basePrice) :
    LedgerOk (step s op) ∧ PriceOk (step s op) productId basePrice := by
  obtain ⟨hl, hp⟩ := h
  cases op with
  | place_bid session productId' bidAmount =>
    rcases place_bid_cases s session productId' bidAmount with ⟨hsame, _⟩ | hyes
    · simp only [step, hsame]; exact ⟨hl, hp⟩
    · obtain ⟨user, product, amount, _, _, _, _, hfind, hlt, heq⟩ := hyes
      simp only [step, heq]
      exact ⟨ledgerOk_bidPlaced s user product amount hl,
        priceOk_bidPlaced s user productId' product amount hfind hlt productId basePrice hp⟩
  | cancel_bid session bidId =>
    rcases cancel_bid_cases s session bidId with ⟨hsame, _⟩ | hyes
    · simp only [step, hsame]; exact ⟨hl, hp⟩
    · obtain ⟨user, bid, _, _, hbid, heq⟩ := hyes
      simp only [step, heq]
      exact ⟨ledgerOk_bidCancelled s bid hl,
        priceOk_bidCancelled s bid (findBidOfBuyer_some hbid).1 hl.1 productId basePrice hp⟩
  | accept_highest_bid session productId' =>
    rcases accept_highest_bid_cases s session productId' with ⟨hsame, _⟩ | hyes
    · simp only [step, hsame]; exact ⟨hl, hp⟩
    · obtain ⟨user, product, highestBid, _, _, hfind, _, heq⟩ := hyes
      simp only [step, heq]
      exact ⟨ledgerOk_productSold s user product highestBid hl,
        priceOk_productSold s user productId' product highestBid hfind productId
          basePrice hp⟩

theorem run_preserves [LinearOrder R] [Zero R] (s : Store R) (ops : List (Op R)) (productId : Nat) (basePrice : R)
    (h : LedgerOk s ∧ PriceOk s productId basePrice) :
    LedgerOk (run s ops) ∧ PriceOk (run s ops) productId basePrice := by
  induction ops generalizing s with
  | nil => exact h
  | cons op ops ih => exact ih (step s op) (step_preserves s op productId basePrice h)

end InvariantFacts

section InvariantClaim

variable {R : Type} [LinearOrder R] [Zero R]

/-- C1: take a store whose ledger is well formed and a listing in the state add-product
leaves it in (currentBid = basePrice, no bid in the ledger).  After any finite sequence
of place_bid, cancel_bid and accept_highest_bid requests served one after another, on
any listings and by any sessions, the listing still exists with the same base price and
its currentBid is the maximum of basePrice and of the amounts of all the bids the ledger
then holds for it. -/
theorem price_invariant (s : Store R) (productId : Nat) (product : Product R)
    (hfind : findProductById s.products productId = some product)
    (hnew : product.currentBid = product.basePrice)
    (hnobids : bidsOfProduct s.bids productId = [])
    (hledger : LedgerOk s) (ops : List (Op R)) :
    ∃ p, findProductById (run s ops).products productId = some p ∧
      p.basePrice = product.basePrice ∧
      p.currentBid =
        bestPrice product.basePrice (amountsOfProduct (run s ops).bids productId) := by
  have h0 : PriceOk s productId product.basePrice := by
    refine ⟨product, hfind, rfl, ?_, ?_⟩
    · simp [amountsOfProduct, hnobids, bestPrice, hnew]
    · intro b hb hbp
      have : b ∈ bidsOfProduct s.bids productId := by simp [bidsOfProduct, hb, hbp]
      rw [hnobids] at this
      simp at this
  obtain ⟨_, p, hp, hbase, hprice, _⟩ :=
    run_preserves s ops productId product.basePrice ⟨hledger, h0⟩
  exact ⟨p, hp, hbase, hprice⟩

/-- Witness for C1: the scenario run from the freshly created listing of base price 100
ends with A's bid of 120 alone in the ledger and the price at 120. -/
theorem price_invariant_witness :
    (run store100 scenarioOps).bids = [bidA120] ∧
    bestPrice (100 : ℤ) (amountsOfProduct (run store100 scenarioOps).bids 1) = 120 ∧
    ∃ p, findProductById (run store100 scenarioOps).products 1 = some p ∧
      p.basePrice = listing100.basePrice ∧
      p.currentBid =
        bestPrice listing100.basePrice
          (amountsOfProduct (run store100 scenarioOps).bids 1) :=
  ⟨by decide, by decide,
    price_invariant store100 1 listing100 (by decide) (by decide) (by decide)
      ⟨by decide, by decide⟩ scenarioOps⟩

end InvariantClaim

/-! ## Repeated sale: claim C11 -/

section RepeatedSaleFacts

variable {R : Type}

theorem accept_highest_bid_sold [LinearOrder R] (s : Store R) (user : SessionUser)
    (hrole : user.role = "farmer") (productId : Nat) (product : Product R)
    (hfind : findProductById s.products productId = some product) (highestBid : Bid R)
    (hhb : findHighestBid s.bids productId = some highestBid) :
    accept_highest_bid s (some user) productId =
      (Response.redirect "/farmer/orders", productSold s user product highestBid) := by
  have hid : product._id = productId := findProductById_id hfind
  simp [accept_highest_bid, isLoggedIn, isFarmer, hrole, hfind, hid, hhb, productSold]

theorem findProductById_productSold [LinearOrder R] (s : Store R) (user : SessionUser)
    (productId' : Nat) (product : Product R) (highestBid : Bid R)
    (hfind : findProductById s.products productId' = some product) (productId : Nat)
    (h : (findProductById s.products productId).isSome) :
    (findProductById (productSold s user product highestBid).products productId).isSome := by
  have hid : product._id = productId' := findProductById_id hfind
  by_cases hsame : productId = productId'
  · subst hsame
    have := findProductById_saveProduct_self s.products
      { product with status := ProductStatus.SOLD, winner := some highestBid.buyerId }
      product (by simpa [hid] using hfind)
    have h2 : findProductById (productSold s user product highestBid).products productId =
        some { product with
          status := ProductStatus.SOLD, winner := some highestBid.buyerId } := by
      simpa [productSold, hid] using this
    rw [h2]; rfl
  · have : findProductById (productSold s user product highestBid).products productId =
        findProductById s.products productId :=
      findProductById_saveProduct_of_ne s.products _ productId (by simpa [hid] using hsame)
    rw [this]; exact h

/-- One sell request adds one order to a listing that exists and has a bid exactly when
a farmer session makes it on that listing; the listing and the ledger stay. -/
theorem accept_highest_bid_order_count [LinearOrder R] (s : Store R) (productId : Nat)
    (hfind : (findProductById s.products productId).isSome)
    (hbid : bidsOfProduct s.bids productId ≠ []) (call : Option SessionUser × Nat) :
    (ordersOfProduct (accept_highest_bid s call.1 call.2).2.orders productId).length =
      (ordersOfProduct s.orders productId).length +
        (if isFarmerCall productId call then 1 else 0) ∧
    (findProductById (accept_highest_bid s call.1 call.2).2.products productId).isSome ∧
    (accept_highest_bid s call.1 call.2).2.bids = s.bids := by
  obtain ⟨session, productId'⟩ := call
  by_cases hcall : isFarmerCall productId (session, productId') = true
  · have h1 : productId' = productId ∧ ∃ user, session = some user ∧ user.role = "farmer" := by
      cases session with
      | none => simp [isFarmerCall] at hcall
      | some user => simpa [isFarmerCall] using hcall
    obtain ⟨hp, user, hs, hrole⟩ := h1
    subst hp hs
    obtain ⟨product, hprod⟩ := Option.isSome_iff_exists.mp hfind
    have hid : product._id = productId' := findProductById_id hprod
    cases hhb : findHighestBid s.bids productId' with
    | none => exact absurd ((findHighestBid_eq_none_iff s.bids productId').mp hhb) hbid
    | some highestBid =>
      simp only [accept_highest_bid_sold s user hrole productId' product hprod highestBid hhb,
        hcall, if_true]
      refine ⟨?_, findProductById_productSold s user productId' product highestBid hprod
        productId' hfind, rfl⟩
      simp [productSold, ordersOfProduct, hid, List.filter_append]
  · have hcall' : isFarmerCall productId (session, productId') = false := by
      simpa using hcall
    simp only [hcall', Bool.false_eq_true, if_false, Nat.add_zero]
    rcases accept_highest_bid_cases s session productId' with ⟨hsame, _⟩ | hyes
    · simp only [hsame]; exact ⟨trivial, hfind, trivial⟩
    · obtain ⟨user, product, highestBid, hs, hrole, hprod, _, heq⟩ := hyes
      have hid : product._id = productId' := findProductById_id hprod
      have hne : productId' ≠ productId := by
        intro e
        subst hs
        simp [isFarmerCall, e, hrole] at hcall'
      simp only [heq]
      refine ⟨?_, findProductById_productSold s user productId' product highestBid hprod
        productId hfind, rfl⟩
      simp [productSold, ordersOfProduct, hid, List.filter_append, hne]

theorem sellAll_order_count [LinearOrder R] (s : Store R) (productId : Nat)
    (hfind : (findProductById s.products productId).isSome)
    (hbid : bidsOfProduct s.bids productId ≠ [])
    (calls : List (Option SessionUser × Nat)) :
    (ordersOfProduct (sellAll s calls).orders productId).length =
      (ordersOfProduct s.orders productId).length +
        (calls.filter (isFarmerCall productId)).length := by
  induction calls generalizing s with
  | nil => simp [sellAll]
  | cons call calls ih =>
    obtain ⟨h1, h2, h3⟩ := accept_highest_bid_order_count s productId hfind hbid call
    have hstep : sellAll s (call :: calls) =
        sellAll (accept_highest_bid s call.1 call.2).2 calls := rfl
    rw [hstep, ih _ h2 (by rw [h3]; exact hbid), h1]
    by_cases hc : isFarmerCall productId call = true
    · simp [hc, List.filter_cons]; omega
    · simp [hc, List.filter_cons]

end RepeatedSaleFacts

section RepeatedSaleClaim

variable {R : Type}

/-- C11 as stated fails: in the bidding scenario the owner asks twice to sell the
listing; the second request finds the listing SOLD, succeeds all the same, and the
listing ends with two Orders. -/
theorem accept_highest_bid_twice_creates_two_orders :
    (findProductById storeAccepted.products 1).map (fun p => p.status) =
      some ProductStatus.SOLD ∧
    (accept_highest_bid storeAccepted (some farmerOwner) 1).1 =
      Response.redirect "/farmer/orders" ∧
    (ordersOfProduct
      (sellAll storeScenario [(some farmerOwner, 1), (some farmerOwner, 1)]).orders
      1).length = 2 := by
  decide

/-- C11 amended: accept_highest_bid does not consult the listing's status.  On a listing
that exists and has a bid in the ledger, every sell request made by a farmer session on
that listing creates exactly one Order for it, also when the listing is already SOLD,
and every other sell request creates none: after any sequence of sell requests the
listing has gained as many Orders as the sequence holds farmer requests on it. -/
theorem accept_highest_bid_orders_per_call [LinearOrder R] (s : Store R) (productId : Nat)
    (product : Product R) (hfind : findProductById s.products productId = some product)
    (hbid : bidsOfProduct s.bids productId ≠ [])
    (calls : List (Option SessionUser × Nat)) :
    (ordersOfProduct (sellAll s calls).orders productId).length =
      (ordersOfProduct s.orders productId).length +
        (calls.filter (isFarmerCall productId)).length :=
  sellAll_order_count s productId (by rw [hfind]; rfl) hbid calls

/-- Witness for C11 amended: in the bidding scenario, of three sell requests two are by a
farmer on listing 1 and one is by a buyer; the listing gains two Orders. -/
theorem accept_highest_bid_orders_per_call_witness :
    (ordersOfProduct
      (sellAll storeScenario
        [(some farmerOwner, 1), (some buyerA, 1), (some farmerOwner, 1)]).orders 1).length =
      (ordersOfProduct storeScenario.orders 1).length + 2 :=
  accept_highest_bid_orders_per_call storeScenario 1 listing120 (by decide) (by decide)
    [(some farmerOwner, 1), (some buyerA, 1), (some farmerOwner, 1)]

end RepeatedSaleClaim

/-! ## Checkout: claims C12 and C13 -/

section CheckoutFacts

variable {R : Type}

theorem findProductById_saveProduct_isSome (ps : List (Product R)) (q : Product R) (id : Nat)
    (h : (findProductById ps id).isSome) :
    (findProductById (saveProduct ps q) id).isSome := by
  by_cases hid : id = q._id
  · subst hid
    obtain ⟨p, hp⟩ := Option.isSome_iff_exists.mp h
    rw [findProductById_saveProduct_self ps q p hp]; rfl
  · rw [findProductById_saveProduct_of_ne ps q id hid]; exact h

theorem populateItems_found (ps : List (Product R)) (items : List (CartItem R))
    (itemProduct : Product R) (quantity : R)
    (h : (some itemProduct, quantity) ∈ populateItems ps items) :
    findProductById ps itemProduct._id = some itemProduct := by
  obtain ⟨item, _, hitem⟩ := List.mem_map.mp h
  have h1 : findProductById ps item.product = some itemProduct := by
    have := congrArg Prod.fst hitem
    simpa using this
  rw [findProductById_id h1]; exact h1

/-- A line that is not passed over: what the loop body does to the store. -/
theorem checkoutLine_shape [LinearOrderedRing R] (s : Store R) (user : SessionUser)
    (itemProduct product : Product R) (quantity : R)
    (h : ¬ (product.listingType = ListingType.FIXED ∧ product.quantity < quantity)) :
    ∃ (product' : Product R) (extra : List Notification),
      checkoutLine s user itemProduct product quantity =
        orderCreated
          { s with
            notifications := s.notifications ++ extra
            products := saveProduct s.products product' }
          user itemProduct product' quantity ∧
      product'._id = product._id ∧ product'.listingType = product.listingType ∧
      product'.farmerId = product.farmerId ∧
      (product.listingType = ListingType.AUCTION → product'.status = ProductStatus.SOLD) := by
  unfold checkoutLine
  by_cases hfixed : product.listingType = ListingType.FIXED
  · have hq : ¬ product.quantity < quantity := fun hlt => h ⟨hfixed, hlt⟩
    rw [if_pos hfixed, if_neg hq]
    by_cases hzero : product.quantity - quantity ≤ 0
    · rw [if_pos hzero]
      exact ⟨{ product with quantity := 0, status := ProductStatus.SOLD },
        [{ userId := product.farmerId, type := "INFO" }], rfl, rfl, rfl, rfl, fun _ => rfl⟩
    · rw [if_neg hzero]
      refine ⟨{ product with quantity := product.quantity - quantity }, [], ?_, rfl, rfl, rfl,
        ?_⟩
      · simp
      · intro ha; rw [hfixed] at ha; exact absurd ha (by decide)
  · rw [if_neg hfixed]
    refine ⟨{ product with status := ProductStatus.SOLD, winner := some user._id }, [], ?_,
      rfl, rfl, rfl, fun _ => rfl⟩
    simp

theorem checkoutLine_skipped [LinearOrderedRing R] (s : Store R) (user : SessionUser)
    (itemProduct product : Product R) (quantity : R)
    (hfixed : product.listingType = ListingType.FIXED) (hlt : product.quantity < quantity) :
    checkoutLine s user itemProduct product quantity = s := by
  simp [checkoutLine, hfixed, hlt]

theorem checkoutLine_keeps_listings [LinearOrderedRing R] (s : Store R) (user : SessionUser)
    (itemProduct product : Product R) (quantity : R) (id : Nat)
    (h : (findProductById s.products id).isSome) :
    (findProductById (checkoutLine s user itemProduct product quantity).products id).isSome := by
  by_cases hskip : product.listingType = ListingType.FIXED ∧ product.quantity < quantity
  · rw [checkoutLine_skipped s user itemProduct product quantity hskip.1 hskip.2]; exact h
  · obtain ⟨product', extra, heq, _⟩ :=
      checkoutLine_shape s user itemProduct product quantity hskip
    rw [heq]
    exact findProductById_saveProduct_isSome s.products product' id h

/-- The loop of checkout comes to its end whenever the populated listings are stored. -/
theorem checkoutLoop_ok [LinearOrderedRing R] (user : SessionUser)
    (lines : List (Option (Product R) × R)) (s : Store R)
    (h : ∀ itemProduct quantity, (some itemProduct, quantity) ∈ lines →
      (findProductById s.products itemProduct._id).isSome) :
    ∃ s', checkoutLoop s user lines = Except.ok s' := by
  induction lines generalizing s with
  | nil => exact ⟨s, rfl⟩
  | cons line rest ih =>
    obtain ⟨populated, quantity⟩ := line
    cases populated with
    | none =>
      exact ih s (fun ip q hm => h ip q (List.mem_cons_of_mem _ hm))
    | some itemProduct =>
      obtain ⟨product, hprod⟩ :=
        Option.isSome_iff_exists.mp (h itemProduct quantity (List.mem_cons_self _ _))
      have hstep : checkoutLoop s user ((some itemProduct, quantity) :: rest) =
          checkoutLoop (checkoutLine s user itemProduct product quantity) user rest := by
        simp [checkoutLoop, hprod]
      rw [hstep]
      exact ih _ (fun ip q hm =>
        checkoutLine_keeps_listings s user itemProduct product quantity ip._id
          (h ip q (List.mem_cons_of_mem _ hm)))

end CheckoutFacts

section CheckoutClaims

variable {R : Type}

/-- C12: when the loop of checkout reaches a line on a fixed-price listing, it compares
the requested quantity with the stock the listing has at that moment.  If the quantity
exceeds the stock the line leaves the whole store unchanged (no Order, same stock and
status) and the loop goes on with the remaining lines; otherwise the line creates
exactly one Order, for that listing and that buyer, and the loop goes on with the
remaining lines.  The loop over a populated cart always comes to its end. -/
theorem checkout_line_order_iff_stock [LinearOrderedRing R] (s : Store R)
    (user : SessionUser) (itemProduct product : Product R) (quantity : R)
    (rest : List (Option (Product R) × R))
    (hfind : findProductById s.products itemProduct._id = some product)
    (hfixed : product.listingType = ListingType.FIXED) :
    (product.quantity < quantity →
      checkoutLine s user itemProduct product quantity = s ∧
      checkoutLoop s user ((some itemProduct, quantity) :: rest) =
        checkoutLoop s user rest) ∧
    (¬ product.quantity < quantity →
      (∃ order : Order R, order.productId = itemProduct._id ∧ order.buyerId = user._id ∧
        (checkoutLine s user itemProduct product quantity).orders = s.orders ++ [order]) ∧
      checkoutLoop s user ((some itemProduct, quantity) :: rest) =
        checkoutLoop (checkoutLine s user itemProduct product quantity) user rest) ∧
    (∀ items : List (CartItem R),
      ∃ s', checkoutLoop s user (populateItems s.products items) = Except.ok s') := by
  have hstep : checkoutLoop s user ((some itemProduct, quantity) :: rest) =
      checkoutLoop (checkoutLine s user itemProduct product quantity) user rest := by
    simp [checkoutLoop, hfind]
  refine ⟨?_, ?_, ?_⟩
  · intro hlt
    have hskip := checkoutLine_skipped s user itemProduct product quantity hfixed hlt
    exact ⟨hskip, by rw [hstep, hskip]⟩
  · intro hge
    refine ⟨?_, hstep⟩
    obtain ⟨product', extra, heq, _⟩ :=
      checkoutLine_shape s user itemProduct product quantity (fun hc => hge hc.2)
    rw [heq]
    exact ⟨_, rfl, rfl, rfl⟩
  · intro items
    apply checkoutLoop_ok
    intro ip q hm
    rw [populateItems_found s.products items ip q hm]; rfl

/-- Witness for C12, the scenario of the spec: buyer A's cart asks 3 units of the listing
with stock 2 and 2 units of the listing with stock 5.  The first line is passed over and
its listing keeps stock 2; the second line is served; checkout ends with exactly one
Order, for the second listing. -/
theorem checkout_line_order_iff_stock_witness :
    checkoutLine storeCart buyerA fixedStock2 fixedStock2 3 = storeCart ∧
    checkoutLoop storeCart buyerA [(some fixedStock2, 3), (some fixedStock5, 2)] =
      checkoutLoop storeCart buyerA [(some fixedStock5, 2)] ∧
    (checkout storeCart (some buyerA)).1 =
      Response.redirect "/buyer/orders?msg=Order+Placed+Successfully" ∧
    (checkout storeCart (some buyerA)).2.orders =
      [{ _id := 7, productId := 6, buyerId := 20, farmerId := 10, finalPrice := 14,
         status := "Pending" }] ∧
    findProductById (checkout storeCart (some buyerA)).2.products 5 = some fixedStock2 := by
  have h := (checkout_line_order_iff_stock storeCart buyerA fixedStock2 fixedStock2 3
    [(some fixedStock5, 2)] (by decide) (by decide)).1 (by decide)
  exact ⟨h.1, h.2, by decide, by decide, by decide⟩

/-- C13 as stated fails: the listing has current bid 0 and base price 50; buyer A's
checkout of 2 units is served and the Order's finalPrice is 100, the base price times
the quantity, not the current bid times the quantity, which is 0. -/
theorem checkout_final_price_falls_back_on_base_price :
    findProductById storeZeroBid.products 6 = some fixedZeroBid ∧
    fixedZeroBid.currentBid * 2 = 0 ∧
    (checkout storeZeroBid (some buyerA)).1 =
      Response.redirect "/buyer/orders?msg=Order+Placed+Successfully" ∧
    (checkout storeZeroBid (some buyerA)).2.orders =
      [{ _id := 7, productId := 6, buyerId := 20, farmerId := 10, finalPrice := 100,
         status := "Pending" }] ∧
    (checkout storeZeroBid (some buyerA)).2.orders.map (fun o => o.finalPrice) ≠
      [fixedZeroBid.currentBid * 2] := by
  decide

/-- C13 amended: a line of checkout on a fixed-price listing whose stock is not below the
requested quantity leaves the listing with its stock decreased by exactly that quantity
and with status SOLD when the resulting stock is zero, its former status otherwise, and
creates one Order whose finalPrice is `currentBid` times the quantity when `currentBid`
is not zero and `basePrice` times the quantity when it is zero; the loop then goes on
with the remaining lines from that store.  For a buyer whose cart is that one line the
route checkout answers Order Placed and leaves exactly that listing and that Order. -/
theorem checkout_line_decrements_stock [LinearOrderedRing R] (s : Store R)
    (user : SessionUser) (itemProduct product : Product R) (quantity : R)
    (hfind : findProductById s.products itemProduct._id = some product)
    (hfixed : product.listingType = ListingType.FIXED)
    (hstock : ¬ product.quantity < quantity) :
    findProductById (checkoutLine s user itemProduct product quantity).products
        itemProduct._id =
      some { product with
        quantity := product.quantity - quantity
        status := if product.quantity - quantity = 0 then ProductStatus.SOLD
          else product.status } ∧
    (checkoutLine s user itemProduct product quantity).orders =
      s.orders ++
        [{ _id := s.nextId, productId := itemProduct._id, buyerId := user._id,
           farmerId := itemProduct.farmerId,
           finalPrice :=
             (if product.currentBid = 0 then product.basePrice else product.currentBid) *
               quantity,
           status := "Pending" }] ∧
    (∃ order : Order R,
      (checkoutLine s user itemProduct product quantity).orders = s.orders ++ [order] ∧
      (product.currentBid ≠ 0 → order.finalPrice = product.currentBid * quantity) ∧
      (product.currentBid = 0 → order.finalPrice = product.basePrice * quantity)) ∧
    (∀ rest : List (Option (Product R) × R),
      checkoutLoop s user ((some itemProduct, quantity) :: rest) =
        checkoutLoop (checkoutLine s user itemProduct product quantity) user rest) ∧
    (∀ cart : Cart R, user.role = "buyer" →
      findCartOfBuyer s.carts user._id = some cart →
      cart.items = [{ product := itemProduct._id, quantity := quantity }] →
      (checkout s (some user)).1 =
        Response.redirect "/buyer/orders?msg=Order+Placed+Successfully" ∧
      findProductById (checkout s (some user)).2.products itemProduct._id =
        some { product with
          quantity := product.quantity - quantity
          status := if product.quantity - quantity = 0 then ProductStatus.SOLD
            else product.status } ∧
      (checkout s (some user)).2.orders =
        s.orders ++
          [{ _id := s.nextId, productId := itemProduct._id, buyerId := user._id,
             farmerId := product.farmerId,
             finalPrice :=
               (if product.currentBid = 0 then product.basePrice else product.currentBid) *
                 quantity,
             status := "Pending" }]) := by
  have hid : product._id = itemProduct._id := findProductById_id hfind
  have hnonneg : 0 ≤ product.quantity - quantity := sub_nonneg.mpr (not_lt.mp hstock)
  have hline : ∀ populated : Product R,
      checkoutLine s user populated product quantity =
      orderCreated
        { s with
          notifications := s.notifications ++
            (if product.quantity - quantity = 0 then
              [{ userId := product.farmerId, type := "INFO" }] else [])
          products := saveProduct s.products
            { product with
              quantity := product.quantity - quantity
              status := if product.quantity - quantity = 0 then ProductStatus.SOLD
                else product.status } }
        user populated
        { product with
          quantity := product.quantity - quantity
          status := if product.quantity - quantity = 0 then ProductStatus.SOLD
            else product.status } quantity := by
    intro populated
    unfold checkoutLine
    rw [if_pos hfixed, if_neg hstock]
    by_cases hzero : product.quantity - quantity ≤ 0
    · have h0 : product.quantity - quantity = 0 := le_antisymm hzero hnonneg
      rw [if_pos hzero]
      simp [h0]
    · have h0 : product.quantity - quantity ≠ 0 := fun e => hzero (le_of_eq e)
      rw [if_neg hzero]
      simp [h0]
  have hsaved : ∀ populated : Product R,
      findProductById (checkoutLine s user populated product quantity).products
          itemProduct._id =
        some { product with
          quantity := product.quantity - quantity
          status := if product.quantity - quantity = 0 then ProductStatus.SOLD
            else product.status } := by
    intro populated
    rw [hline populated]
    have := findProductById_saveProduct_self s.products
      { product with
        quantity := product.quantity - quantity
        status := if product.quantity - quantity = 0 then ProductStatus.SOLD
          else product.status } product (by simpa [hid] using hfind)
    simpa [orderCreated, hid] using this
  have hstep : ∀ rest : List (Option (Product R) × R),
      checkoutLoop s user ((some itemProduct, quantity) :: rest) =
        checkoutLoop (checkoutLine s user itemProduct product quantity) user rest := by
    intro rest
    simp [checkoutLoop, hfind]
  refine ⟨hsaved itemProduct, by rw [hline itemProduct]; rfl, ?_, hstep, ?_⟩
  · refine ⟨_, by rw [hline itemProduct]; rfl, ?_, ?_⟩
    · intro hc; simp [hc]
    · intro hc; simp [hc]
  · intro cart hrole hcart hitems
    have hself : findProductById s.products product._id = some product := by
      rw [hid]; exact hfind
    have hroute : checkout s (some user) =
        (Response.redirect "/buyer/orders?msg=Order+Placed+Successfully",
          { checkoutLine s user product product quantity with
            carts := clearCart (checkoutLine s user product product quantity).carts
              user._id }) := by
      simp [checkout, isLoggedIn, isBuyer, hrole, hcart, hitems, populateItems, hfind,
        checkoutLoop, hself]
    rw [hroute]
    refine ⟨rfl, hsaved product, ?_⟩
    show (checkoutLine s user product product quantity).orders = _
    rw [hline product]
    simp [orderCreated, hid]

/-- Witness for C13 amended: buyer A's checkout of the one-line cart, 2 units of the
listing with stock 5 and price 7, leaves stock 3, the status OPEN and one Order of
finalPrice 14; the last 2 units of the listing with stock 2 leave stock 0 and the status
SOLD. -/
theorem checkout_line_decrements_stock_witness :
    ((checkout storeOneLine (some buyerA)).1 =
        Response.redirect "/buyer/orders?msg=Order+Placed+Successfully" ∧
      findProductById (checkout storeOneLine (some buyerA)).2.products 6 =
        some { fixedStock5 with quantity := 3 } ∧
      (checkout storeOneLine (some buyerA)).2.orders =
        [{ _id := 7, productId := 6, buyerId := 20, farmerId := 10, finalPrice := 14,
           status := "Pending" }]) ∧
    (findProductById (checkoutLine storeCart buyerA fixedStock2 fixedStock2 2).products 5 =
      some { fixedStock2 with quantity := 0, status := ProductStatus.SOLD }) := by
  have h5 := (checkout_line_decrements_stock storeOneLine buyerA fixedStock5 fixedStock5 2
    (by decide) (by decide) (by decide)).2.2.2.2
    { buyer := 20, items := [{ product := 6, quantity := 2 }] } (by decide) (by decide)
    (by decide)
  have h2 := checkout_line_decrements_stock storeCart buyerA fixedStock2 fixedStock2 2
    (by decide) (by decide) (by decide)
  refine ⟨⟨h5.1, ?_, ?_⟩, ?_⟩
  · exact h5.2.1.trans (by decide)
  · exact h5.2.2.trans (by decide)
  · exact h2.1.trans (by decide)

end CheckoutClaims

/-! ## Orders: claims C14 to C16 -/

section OrderFacts

variable {R : Type}

theorem findOrderOfBuyer_some {orders : List (Order R)} {id buyerId : Nat} {o : Order R}
    (h : findOrderOfBuyer orders id buyerId = some o) :
    o ∈ orders ∧ o._id = id ∧ o.buyerId = buyerId := by
  have h1 := List.find?_some h
  have h2 : o ∈ orders := List.mem_of_find?_eq_some h
  simp at h1
  exact ⟨h2, h1.1, h1.2⟩

theorem findOrderOfFarmer_some {orders : List (Order R)} {id farmerId : Nat} {o : Order R}
    (h : findOrderOfFarmer orders id farmerId = some o) :
    o ∈ orders ∧ o._id = id ∧ o.farmerId = farmerId := by
  have h1 := List.find?_some h
  have h2 : o ∈ orders := List.mem_of_find?_eq_some h
  simp at h1
  exact ⟨h2, h1.1, h1.2⟩

theorem findOrderOfBuyer_saveOrder (orders : List (Order R)) (id buyerId : Nat)
    (o : Order R) (status : String) (h : findOrderOfBuyer orders id buyerId = some o) :
    findOrderOfBuyer (saveOrder orders { o with status := status }) id buyerId =
      some { o with status := status } := by
  have hid : o._id = id := (findOrderOfBuyer_some h).2.1
  have hb : o.buyerId = buyerId := (findOrderOfBuyer_some h).2.2
  induction orders with
  | nil => simp [findOrderOfBuyer] at h
  | cons q qs ih =>
    unfold saveOrder
    by_cases hq : q._id = o._id
    · rw [if_pos hq]; simp [findOrderOfBuyer, hid, hb]
    · rw [if_neg hq]
      have hq' : ¬ q._id = id := by rw [← hid]; exact hq
      have h' : findOrderOfBuyer qs id buyerId = some o := by
        simpa [findOrderOfBuyer, hq'] using h
      simpa [findOrderOfBuyer, hq'] using ih h'

theorem findOrderOfFarmer_saveOrder (orders : List (Order R)) (id farmerId : Nat)
    (o : Order R) (status : String) (h : findOrderOfFarmer orders id farmerId = some o) :
    findOrderOfFarmer (saveOrder orders { o with status := status }) id farmerId =
      some { o with status := status } := by
  have hid : o._id = id := (findOrderOfFarmer_some h).2.1
  have hb : o.farmerId = farmerId := (findOrderOfFarmer_some h).2.2
  induction orders with
  | nil => simp [findOrderOfFarmer] at h
  | cons q qs ih =>
    unfold saveOrder
    by_cases hq : q._id = o._id
    · rw [if_pos hq]; simp [findOrderOfFarmer, hid, hb]
    · rw [if_neg hq]
      have hq' : ¬ q._id = id := by rw [← hid]; exact hq
      have h' : findOrderOfFarmer qs id farmerId = some o := by
        simpa [findOrderOfFarmer, hq'] using h
      simpa [findOrderOfFarmer, hq'] using ih h'

theorem cancel_order_buyer_rejected [LinearOrderedRing R] (s : Store R) (user : SessionUser)
    (hrole : user.role = "buyer") (orderId : Nat) (order : Order R)
    (hown : findOrderOfBuyer s.orders orderId user._id = some order)
    (hdone : order.status = "Delivered" ∨ order.status = "Cancelled") :
    cancel_order_buyer s (some user) orderId =
      (Response.redirect "/buyer/orders?msg=Cannot+Cancel+Completed+Order", s) := by
  simp [cancel_order_buyer, isLoggedIn, isBuyer, hrole, hown, hdone]

theorem cancel_order_farmer_rejected [LinearOrderedRing R] (s : Store R) (user : SessionUser)
    (hrole : user.role = "farmer") (orderId : Nat) (order : Order R)
    (hown : findOrderOfFarmer s.orders orderId user._id = some order)
    (hdone : order.status = "Delivered" ∨ order.status = "Cancelled") :
    cancel_order_farmer s (some user) orderId =
      (Response.redirect "/farmer/orders?msg=Cannot+Cancel+Completed+Order", s) := by
  simp [cancel_order_farmer, isLoggedIn, isFarmer, hrole, hown, hdone]

/-- The listing of a cancelled order after the buyer path has restocked it. -/
theorem cancel_order_buyer_done [LinearOrderedRing R] (s : Store R) (user : SessionUser)
    (hrole : user.role = "buyer") (orderId : Nat) (order : Order R)
    (hown : findOrderOfBuyer s.orders orderId user._id = some order)
    (hnot : ¬ (order.status = "Delivered" ∨ order.status = "Cancelled")) :
    cancel_order_buyer s (some user) orderId =
      (Response.redirect "/buyer/orders?msg=Order+Cancelled",
        match findProductById s.products order.productId with
        | none => { s with orders := saveOrder s.orders { order with status := "Cancelled" } }
        | some product =>
          if product.listingType = ListingType.FIXED then
            { s with
              orders := saveOrder s.orders { order with status := "Cancelled" }
              products := saveProduct s.products
                (if product.status = ProductStatus.SOLD ∨
                    0 < product.quantity + orderQuantityOrOne order then
                  { product with
                    quantity := product.quantity + orderQuantityOrOne order
                    status := ProductStatus.OPEN }
                else
                  { product with
                    quantity := product.quantity + orderQuantityOrOne order }) }
          else { s with orders := saveOrder s.orders { order with status := "Cancelled" } }) := by
  simp only [cancel_order_buyer, isLoggedIn, isBuyer, hrole, hown, hnot, if_false, ne_eq,
    not_true_eq_false]
  cases findProductById s.products order.productId with
  | none => rfl
  | some product => by_cases hfixed : product.listingType = ListingType.FIXED <;> simp [hfixed]

/-- The listing of a cancelled order after the farmer path has restocked it. -/
theorem cancel_order_farmer_done [LinearOrderedRing R] (s : Store R) (user : SessionUser)
    (hrole : user.role = "farmer") (orderId : Nat) (order : Order R)
    (hown : findOrderOfFarmer s.orders orderId user._id = some order)
    (hnot : ¬ (order.status = "Delivered" ∨ order.status = "Cancelled")) :
    cancel_order_farmer s (some user) orderId =
      (Response.redirect "/farmer/orders?msg=Order+Cancelled",
        match findProductById s.products order.productId with
        | none => { s with orders := saveOrder s.orders { order with status := "Cancelled" } }
        | some product =>
          if product.listingType = ListingType.FIXED then
            { s with
              orders := saveOrder s.orders { order with status := "Cancelled" }
              products := saveProduct s.products
                (if product.status = ProductStatus.SOLD ∧
                    0 < product.quantity + orderQuantityOrOne order then
                  { product with
                    quantity := product.quantity + orderQuantityOrOne order
                    status := ProductStatus.OPEN }
                else
                  { product with
                    quantity := product.quantity + orderQuantityOrOne order }) }
          else { s with orders := saveOrder s.orders { order with status := "Cancelled" } }) := by
  simp only [cancel_order_farmer, isLoggedIn, isFarmer, hrole, hown, hnot, if_false, ne_eq,
    not_true_eq_false]
  cases findProductById s.products order.productId with
  | none => rfl
  | some product => by_cases hfixed : product.listingType = ListingType.FIXED <;> simp [hfixed]

/-- Whatever the request, the buyer path of cancel_order either leaves the store as it was
or cancels an order of the requester that was neither Delivered nor Cancelled; it then
writes the order, no notification, no bid, and at most the listing of the order, which
it writes only when that listing is fixed-price. -/
theorem cancel_order_buyer_effects [LinearOrderedRing R] (s : Store R)
    (session : Option SessionUser) (orderId : Nat) :
    ((cancel_order_buyer s session orderId).2 = s ∧
      (cancel_order_buyer s session orderId).1 ≠
        Response.redirect "/buyer/orders?msg=Order+Cancelled") ∨
    ∃ user order, session = some user ∧ user.role = "buyer" ∧
      findOrderOfBuyer s.orders orderId user._id = some order ∧
      ¬ (order.status = "Delivered" ∨ order.status = "Cancelled") ∧
      (cancel_order_buyer s session orderId).1 =
        Response.redirect "/buyer/orders?msg=Order+Cancelled" ∧
      (cancel_order_buyer s session orderId).2.orders =
        saveOrder s.orders { order with status := "Cancelled" } ∧
      (cancel_order_buyer s session orderId).2.notifications = s.notifications ∧
      (cancel_order_buyer s session orderId).2.bids = s.bids ∧
      ((cancel_order_buyer s session orderId).2.products = s.products ∨
        ∃ product product', findProductById s.products order.productId = some product ∧
          product.listingType = ListingType.FIXED ∧ product'._id = product._id ∧
          product'.listingType = ListingType.FIXED ∧
          (cancel_order_buyer s session orderId).2.products =
            saveProduct s.products product') ∧
      (∀ product, findProductById s.products order.productId = some product →
        product.listingType = ListingType.AUCTION →
        (cancel_order_buyer s session orderId).2.products = s.products) := by
  cases session with
  | none => left; simp [cancel_order_buyer, isLoggedIn]
  | some user =>
    by_cases hrole : user.role = "buyer"
    · cases hown : findOrderOfBuyer s.orders orderId user._id with
      | none => left; simp [cancel_order_buyer, isLoggedIn, isBuyer, hrole, hown]
      | some order =>
        by_cases hdone : order.status = "Delivered" ∨ order.status = "Cancelled"
        · left
          simp [cancel_order_buyer_rejected s user hrole orderId order hown hdone]
        · right
          refine ⟨user, order, rfl, hrole, hown, hdone, ?_⟩
          rw [cancel_order_buyer_done s user hrole orderId order hown hdone]
          rcases hfind : findProductById s.products order.productId with _ | product
          · exact ⟨rfl, rfl, rfl, rfl, Or.inl rfl, fun p hp => absurd hp (by simp)⟩
          · by_cases hfixed : product.listingType = ListingType.FIXED
            · dsimp only
              rw [if_pos hfixed]
              refine ⟨rfl, rfl, rfl, rfl, Or.inr ⟨product, _, rfl, hfixed, ?_, ?_, rfl⟩, ?_⟩
              · split <;> rfl
              · split <;> exact hfixed
              · intro p hp ha
                have hpp : product = p := Option.some.inj hp
                rw [← hpp, hfixed] at ha
                exact absurd ha (by decide)
            · dsimp only
              rw [if_neg hfixed]
              exact ⟨rfl, rfl, rfl, rfl, Or.inl rfl, fun _ _ _ => rfl⟩
    · left; simp [cancel_order_buyer, isLoggedIn, isBuyer, hrole]

/-- Whatever the request, the farmer path of cancel_order either leaves the store as it was
or cancels an order of the requester that was neither Delivered nor Cancelled; it then
writes the order, no notification, no bid, and at most the listing of the order, which
it writes only when that listing is fixed-price. -/
theorem cancel_order_farmer_effects [LinearOrderedRing R] (s : Store R)
    (session : Option SessionUser) (orderId : Nat) :
    ((cancel_order_farmer s session orderId).2 = s ∧
      (cancel_order_farmer s session orderId).1 ≠
        Response.redirect "/farmer/orders?msg=Order+Cancelled") ∨
    ∃ user order, session = some user ∧ user.role = "farmer" ∧
      findOrderOfFarmer s.orders orderId user._id = some order ∧
      ¬ (order.status = "Delivered" ∨ order.status = "Cancelled") ∧
      (cancel_order_farmer s session orderId).1 =
        Response.redirect "/farmer/orders?msg=Order+Cancelled" ∧
      (cancel_order_farmer s session orderId).2.orders =
        saveOrder s.orders { order with status := "Cancelled" } ∧
      (cancel_order_farmer s session orderId).2.notifications = s.notifications ∧
      (cancel_order_farmer s session orderId).2.bids = s.bids ∧
      ((cancel_order_farmer s session orderId).2.products = s.products ∨
        ∃ product product', findProductById s.products order.productId = some product ∧
          product.listingType = ListingType.FIXED ∧ product'._id = product._id ∧
          product'.listingType = ListingType.FIXED ∧
          (cancel_order_farmer s session orderId).2.products =
            saveProduct s.products product') ∧
      (∀ product, findProductById s.products order.productId = some product →
        product.listingType = ListingType.AUCTION →
        (cancel_order_farmer s session orderId).2.products = s.products) := by
  cases session with
  | none => left; simp [cancel_order_farmer, isLoggedIn]
  | some user =>
    by_cases hrole : user.role = "farmer"
    · cases hown : findOrderOfFarmer s.orders orderId user._id with
      | none => left; simp [cancel_order_farmer, isLoggedIn, isFarmer, hrole, hown]
      | some order =>
        by_cases hdone : order.status = "Delivered" ∨ order.status = "Cancelled"
        · left
          simp [cancel_order_farmer_rejected s user hrole orderId order hown hdone]
        · right
          refine ⟨user, order, rfl, hrole, hown, hdone, ?_⟩
          rw [cancel_order_farmer_done s user hrole orderId order hown hdone]
          rcases hfind : findProductById s.products order.productId with _ | product
          · exact ⟨rfl, rfl, rfl, rfl, Or.inl rfl, fun p hp => absurd hp (by simp)⟩
          · by_cases hfixed : product.listingType = ListingType.FIXED
            · dsimp only
              rw [if_pos hfixed]
              refine ⟨rfl, rfl, rfl, rfl, Or.inr ⟨product, _, rfl, hfixed, ?_, ?_, rfl⟩, ?_⟩
              · split <;> rfl
              · split <;> exact hfixed
              · intro p hp ha
                have hpp : product = p := Option.some.inj hp
                rw [← hpp, hfixed] at ha
                exact absurd ha (by decide)
            · dsimp only
              rw [if_neg hfixed]
              exact ⟨rfl, rfl, rfl, rfl, Or.inl rfl, fun _ _ _ => rfl⟩
    · left; simp [cancel_order_farmer, isLoggedIn, isFarmer, hrole]

theorem accept_order_cases (s : Store R) (session : Option SessionUser) (orderId : Nat) :
    (accept_order s session orderId).2 = s ∨
    ∃ user order, session = some user ∧ user.role = "farmer" ∧
      findOrderOfFarmer s.orders orderId user._id = some order ∧
      order.status = "Pending" ∧
      (accept_order s session orderId).2 =
        { s with orders := saveOrder s.orders { order with status := "Accepted" } } := by
  cases session with
  | none => left; simp [accept_order, isLoggedIn]
  | some user =>
    by_cases hrole : user.role = "farmer"
    · cases hown : findOrderOfFarmer s.orders orderId user._id with
      | none => left; simp [accept_order, isLoggedIn, isFarmer, hrole, hown]
      | some order =>
        by_cases hp : order.status = "Pending"
        · right
          exact ⟨user, order, rfl, hrole, hown, hp, by
            simp [accept_order, isLoggedIn, isFarmer, hrole, hown, hp]⟩
        · left; simp [accept_order, isLoggedIn, isFarmer, hrole, hown, hp]
    · left; simp [accept_order, isLoggedIn, isFarmer, hrole]

theorem noRegress_refl (status : String) : NoRegress status status := by
  refine ⟨fun _ => rfl, ?_⟩
  intro i j hi hj
  rw [hi] at hj
  exact le_of_eq (Option.some.inj hj)

theorem noRegress_cancelled (status : String)
    (h : ¬ (status = "Delivered" ∨ status = "Cancelled")) :
    NoRegress status "Cancelled" := by
  refine ⟨fun hc => absurd (Or.symm hc) h, ?_⟩
  intro i j _ hj
  have : statusRank "Cancelled" = none := by decide
  rw [this] at hj
  exact absurd hj (by simp)

theorem noRegress_accepted : NoRegress "Pending" "Accepted" := by
  refine ⟨fun hc => absurd hc (by decide), ?_⟩
  intro i j hi hj
  have h0 : statusRank "Pending" = some 0 := by decide
  have h1 : statusRank "Accepted" = some 1 := by decide
  rw [h0] at hi
  rw [h1] at hj
  have := Option.some.inj hi
  have := Option.some.inj hj
  omega

theorem ordersNoRegress_refl (orders : List (Order R)) : OrdersNoRegress orders orders := by
  induction orders with
  | nil => exact List.Forall₂.nil
  | cons o os ih => exact List.Forall₂.cons ⟨rfl, noRegress_refl o.status⟩ ih

/-- With unique ids, saving a stored order under a status that does not regress from
its own leaves every order without regress. -/
theorem ordersNoRegress_saveOrder (orders : List (Order R)) (o : Order R) (status : String)
    (hmem : o ∈ orders) (hids : (orders.map (fun q => q._id)).Nodup)
    (h : NoRegress o.status status) :
    OrdersNoRegress orders (saveOrder orders { o with status := status }) := by
  induction orders with
  | nil => simp at hmem
  | cons q qs ih =>
    unfold saveOrder
    by_cases hq : q._id = o._id
    · rw [if_pos hq]
      have hqo : q = o :=
        List.inj_on_of_nodup_map hids (List.mem_cons_self _ _) hmem hq
      subst hqo
      exact List.Forall₂.cons ⟨rfl, h⟩ (ordersNoRegress_refl qs)
    · rw [if_neg hq]
      have hmem' : o ∈ qs := by
        rcases List.mem_cons.mp hmem with e | e
        · exact absurd (by rw [e]) hq
        · exact e
      have hids' : (qs.map (fun q => q._id)).Nodup := by
        simp only [List.map_cons] at hids
        exact (List.nodup_cons.mp hids).2
      exact List.Forall₂.cons ⟨rfl, noRegress_refl q.status⟩ (ih hmem' hids')

theorem find?_updateOrderStatus (orders : List (Order R)) (id : Nat) (status : String)
    (o : Order R) (h : orders.find? (fun q => q._id == id) = some o) :
    (updateOrderStatus orders id status).find? (fun q => q._id == id) =
      some { o with status := status } := by
  induction orders with
  | nil => simp at h
  | cons q qs ih =>
    unfold updateOrderStatus
    by_cases hq : q._id = id
    · rw [if_pos hq]
      have : q = o := by simpa [hq] using h
      subst this
      simp [hq]
    · rw [if_neg hq]
      have h' : qs.find? (fun q => q._id == id) = some o := by simpa [hq] using h
      simpa [hq] using ih h'

end OrderFacts

section OrderClaims

variable {R : Type}

/-- C14, the code at the failing input: buyer A's checkout of 2 units takes the listing
with stock 5 down to 3; cancelling the resulting order, by the buyer path or by the
farmer path, brings the stock to 4, one unit back and not the 2 that were ordered. -/
theorem cancel_order_restores_one_unit :
    (findProductById storeCart.products 6).map (fun p => p.quantity) = some 5 ∧
    (findProductById storeCheckedOut.products 6).map (fun p => p.quantity) = some 3 ∧
    (cancel_order_buyer storeCheckedOut (some buyerA) 7).1 =
      Response.redirect "/buyer/orders?msg=Order+Cancelled" ∧
    (findProductById (cancel_order_buyer storeCheckedOut (some buyerA) 7).2.products 6).map
      (fun p => p.quantity) = some 4 ∧
    (cancel_order_farmer storeCheckedOut (some farmerOwner) 7).1 =
      Response.redirect "/farmer/orders?msg=Order+Cancelled" ∧
    (findProductById (cancel_order_farmer storeCheckedOut (some farmerOwner) 7).2.products
      6).map (fun p => p.quantity) = some 4 := by
  decide

/-- C15: take an order with its buyer and its seller.  If its status is Delivered or
Cancelled, cancel_order is rejected on both paths and leaves the whole store unchanged,
so the order's status and the listing's stock and status.  For every other status it
succeeds on both paths and the order is afterwards stored with status Cancelled. -/
theorem cancel_order_status_guard [LinearOrderedRing R] (s : Store R)
    (buyer farmer : SessionUser) (hbuyer : buyer.role = "buyer")
    (hfarmer : farmer.role = "farmer") (orderId : Nat) (order : Order R)
    (hownB : findOrderOfBuyer s.orders orderId buyer._id = some order)
    (hownF : findOrderOfFarmer s.orders orderId farmer._id = some order) :
    ((order.status = "Delivered" ∨ order.status = "Cancelled") →
      cancel_order_buyer s (some buyer) orderId =
        (Response.redirect "/buyer/orders?msg=Cannot+Cancel+Completed+Order", s) ∧
      cancel_order_farmer s (some farmer) orderId =
        (Response.redirect "/farmer/orders?msg=Cannot+Cancel+Completed+Order", s)) ∧
    (¬ (order.status = "Delivered" ∨ order.status = "Cancelled") →
      (cancel_order_buyer s (some buyer) orderId).1 =
        Response.redirect "/buyer/orders?msg=Order+Cancelled" ∧
      findOrderOfBuyer (cancel_order_buyer s (some buyer) orderId).2.orders orderId
        buyer._id = some { order with status := "Cancelled" } ∧
      (cancel_order_farmer s (some farmer) orderId).1 =
        Response.redirect "/farmer/orders?msg=Order+Cancelled" ∧
      findOrderOfFarmer (cancel_order_farmer s (some farmer) orderId).2.orders orderId
        farmer._id = some { order with status := "Cancelled" }) := by
  refine ⟨?_, ?_⟩
  · intro hdone
    exact ⟨cancel_order_buyer_rejected s buyer hbuyer orderId order hownB hdone,
      cancel_order_farmer_rejected s farmer hfarmer orderId order hownF hdone⟩
  · intro hnot
    rcases cancel_order_buyer_effects s (some buyer) orderId with ⟨_, hno⟩ | hyes
    · rw [cancel_order_buyer_done s buyer hbuyer orderId order hownB hnot] at hno
      exact absurd rfl hno
    · obtain ⟨user, order', hs, _, hown', _, hresp, horders, _⟩ := hyes
      have hu : buyer = user := Option.some.inj hs
      subst hu
      have ho : order = order' := Option.some.inj (hownB.symm.trans hown')
      subst ho
      rcases cancel_order_farmer_effects s (some farmer) orderId with ⟨_, hno⟩ | hyes
      · rw [cancel_order_farmer_done s farmer hfarmer orderId order hownF hnot] at hno
        exact absurd rfl hno
      · obtain ⟨user, order', hs, _, hown', _, hrespF, hordersF, _⟩ := hyes
        have hu : farmer = user := Option.some.inj hs
        subst hu
        have ho : order = order' := Option.some.inj (hownF.symm.trans hown')
        subst ho
        refine ⟨hresp, ?_, hrespF, ?_⟩
        · rw [horders]
          exact findOrderOfBuyer_saveOrder s.orders orderId buyer._id order "Cancelled" hownB
        · rw [hordersF]
          exact findOrderOfFarmer_saveOrder s.orders orderId farmer._id order "Cancelled"
            hownF

/-- Witness for C15: the Delivered order of the delivered-order store is refused on both
paths, and the Pending order that checkout created is cancelled on both paths. -/
theorem cancel_order_status_guard_witness :
    (cancel_order_buyer storeDelivered (some buyerA) 7 =
        (Response.redirect "/buyer/orders?msg=Cannot+Cancel+Completed+Order",
          storeDelivered) ∧
      cancel_order_farmer storeDelivered (some farmerOwner) 7 =
        (Response.redirect "/farmer/orders?msg=Cannot+Cancel+Completed+Order",
          storeDelivered)) ∧
    ((cancel_order_buyer storeCheckedOut (some buyerA) 7).2.orders.map
        (fun o => o.status) = ["Cancelled"] ∧
      (cancel_order_farmer storeCheckedOut (some farmerOwner) 7).1 =
        Response.redirect "/farmer/orders?msg=Order+Cancelled") := by
  have h1 := (cancel_order_status_guard storeDelivered buyerA farmerOwner (by decide)
    (by decide) 7
    { _id := 7, productId := 6, buyerId := 20, farmerId := 10, finalPrice := 14,
      status := "Delivered" } (by decide) (by decide)).1 (by decide)
  have h2 := (cancel_order_status_guard storeCheckedOut buyerA farmerOwner (by decide)
    (by decide) 7
    { _id := 7, productId := 6, buyerId := 20, farmerId := 10, finalPrice := 14,
      status := "Pending" } (by decide) (by decide)).2 (by decide)
  exact ⟨h1, by decide, h2.2.2.1⟩

/-- C16 as stated fails: the admin status update sets the Delivered order of the
delivered-order store back to Pending. -/
theorem admin_update_regresses_delivered_order :
    storeDelivered.orders.map (fun o => o.status) = ["Delivered"] ∧
    (admin_update_order_status storeDelivered (some adminUser) 7 "Pending").1 =
      Response.redirect "/admin/orders" ∧
    (admin_update_order_status storeDelivered (some adminUser) 7 "Pending").2.orders.map
      (fun o => o.status) = ["Pending"] ∧
    ¬ NoRegress "Delivered" "Pending" := by
  refine ⟨by decide, by decide, by decide, ?_⟩
  intro h
  exact absurd (h.1 (Or.inr rfl)) (by decide)

/-- C16 amended: with order ids unique, as Mongo keeps them, the three routes that guard
on the current status (accept order and the two cancel_order paths) never regress an
order: none is added or removed, a Cancelled or Delivered order keeps its status, and no
status moves to an earlier place of Pending, Accepted, Shipped, Delivered.  The admin
status update has no such guard: it stores the submitted status on the order of the
given id, whatever its current status is. -/
theorem guarded_routes_do_not_regress_orders [LinearOrderedRing R] (s : Store R)
    (hids : (s.orders.map (fun q => q._id)).Nodup) (session : Option SessionUser)
    (orderId : Nat) :
    OrdersNoRegress s.orders (accept_order s session orderId).2.orders ∧
    OrdersNoRegress s.orders (cancel_order_buyer s session orderId).2.orders ∧
    OrdersNoRegress s.orders (cancel_order_farmer s session orderId).2.orders ∧
    (∀ (user : SessionUser) (status : String) (order : Order R),
      user.role = "admin" → s.orders.find? (fun q => q._id == orderId) = some order →
      (admin_update_order_status s (some user) orderId status).2.orders.find?
        (fun q => q._id == orderId) = some { order with status := status }) := by
  refine ⟨?_, ?_, ?_, ?_⟩
  · rcases accept_order_cases s session orderId with hsame | hyes
    · rw [hsame]; exact ordersNoRegress_refl s.orders
    · obtain ⟨user, order, _, _, hown, hp, heq⟩ := hyes
      rw [heq]
      exact ordersNoRegress_saveOrder s.orders order "Accepted"
        (findOrderOfFarmer_some hown).1 hids (by rw [hp]; exact noRegress_accepted)
  · rcases cancel_order_buyer_effects s session orderId with ⟨hsame, _⟩ | hyes
    · rw [hsame]; exact ordersNoRegress_refl s.orders
    · obtain ⟨user, order, _, _, hown, hnot, _, horders, _⟩ := hyes
      rw [horders]
      exact ordersNoRegress_saveOrder s.orders order "Cancelled"
        (findOrderOfBuyer_some hown).1 hids (noRegress_cancelled order.status hnot)
  · rcases cancel_order_farmer_effects s session orderId with ⟨hsame, _⟩ | hyes
    · rw [hsame]; exact ordersNoRegress_refl s.orders
    · obtain ⟨user, order, _, _, hown, hnot, _, horders, _⟩ := hyes
      rw [horders]
      exact ordersNoRegress_saveOrder s.orders order "Cancelled"
        (findOrderOfFarmer_some hown).1 hids (noRegress_cancelled order.status hnot)
  · intro user status order hrole hfind
    have : (admin_update_order_status s (some user) orderId status).2.orders =
        updateOrderStatus s.orders orderId status := by
      simp [admin_update_order_status, isLoggedIn, isAdmin, hrole]
    rw [this]
    exact find?_updateOrderStatus s.orders orderId status order hfind

/-- Witness for C16 amended: on the delivered-order store the farmer's cancel_order and
accept order leave the Delivered order as it is. -/
theorem guarded_routes_do_not_regress_orders_witness :
    (storeDelivered.orders.map (fun q => q._id)).Nodup ∧
    OrdersNoRegress storeDelivered.orders
      (accept_order storeDelivered (some farmerOwner) 7).2.orders ∧
    OrdersNoRegress storeDelivered.orders
      (cancel_order_farmer storeDelivered (some farmerOwner) 7).2.orders ∧
    (cancel_order_farmer storeDelivered (some farmerOwner) 7).2.orders.map
      (fun o => o.status) = ["Delivered"] :=
  have h := guarded_routes_do_not_regress_orders storeDelivered (by decide)
    (some farmerOwner) 7
  ⟨by decide, h.1, h.2.2.1, by decide⟩

end OrderClaims

/-! ## A sold auction stays sold: claim C17 -/

section SoldAuctionFacts

variable {R : Type}

/-- Saving a document that keeps the listing type of the stored one, and keeps it SOLD
when it was a SOLD auction, keeps every SOLD auction. -/
theorem soldAuction_saveProduct (ps : List (Product R)) (productId : Nat)
    (stored saved : Product R) (hfind : findProductById ps saved._id = some stored)
    (htype : saved.listingType = stored.listingType)
    (hstatus : stored.listingType = ListingType.AUCTION →
      stored.status = ProductStatus.SOLD → saved.status = ProductStatus.SOLD)
    (h : SoldAuction ps productId) : SoldAuction (saveProduct ps saved) productId := by
  obtain ⟨p, hp, ha, hs⟩ := h
  by_cases hid : productId = saved._id
  · subst hid
    have hpp : stored = p := Option.some.inj (hfind.symm.trans hp)
    subst hpp
    exact ⟨saved, findProductById_saveProduct_self ps saved stored hfind,
      htype.trans ha, hstatus ha hs⟩
  · exact ⟨p, by rw [findProductById_saveProduct_of_ne ps saved productId hid]; exact hp,
      ha, hs⟩

theorem soldAuction_place_bid [LinearOrder R] [Zero R] (s : Store R)
    (session : Option SessionUser) (productId' : Nat) (bidAmount : Option R)
    (productId : Nat) (h : SoldAuction s.products productId) :
    SoldAuction (place_bid s session productId' bidAmount).2.products productId := by
  rcases place_bid_cases s session productId' bidAmount with ⟨hsame, _⟩ | hyes
  · rw [hsame]; exact h
  · obtain ⟨user, product, amount, _, _, _, _, hfind, _, heq⟩ := hyes
    have hid : product._id = productId' := findProductById_id hfind
    rw [heq]
    exact soldAuction_saveProduct s.products productId product
      { product with currentBid := amount } (by simpa [hid] using hfind) rfl
      (fun _ hs => hs) h

theorem soldAuction_cancel_bid [LinearOrder R] (s : Store R)
    (session : Option SessionUser) (bidId : Nat) (productId : Nat)
    (h : SoldAuction s.products productId) :
    SoldAuction (cancel_bid s session bidId).2.products productId := by
  rcases cancel_bid_cases s session bidId with ⟨hsame, _⟩ | hyes
  · rw [hsame]; exact h
  · obtain ⟨user, bid, _, _, _, heq⟩ := hyes
    rw [heq]
    unfold bidCancelled
    cases hfind : findProductById s.products bid.productId with
    | none => exact h
    | some product =>
      have hid : product._id = bid.productId := findProductById_id hfind
      exact soldAuction_saveProduct s.products productId product
        { product with
          currentBid := recomputedPrice product.basePrice
            (amountsOfProduct (deleteBid s.bids bid._id) bid.productId) }
        (by simpa [hid] using hfind) rfl (fun _ hs => hs) h

theorem soldAuction_accept_highest_bid [LinearOrder R] (s : Store R)
    (session : Option SessionUser) (productId' : Nat) (productId : Nat)
    (h : SoldAuction s.products productId) :
    SoldAuction (accept_highest_bid s session productId').2.products productId := by
  rcases accept_highest_bid_cases s session productId' with ⟨hsame, _⟩ | hyes
  · rw [hsame]; exact h
  · obtain ⟨user, product, highestBid, _, _, hfind, _, heq⟩ := hyes
    have hid : product._id = productId' := findProductById_id hfind
    rw [heq]
    exact soldAuction_saveProduct s.products productId product
      { product with status := ProductStatus.SOLD, winner := some highestBid.buyerId }
      (by simpa [hid] using hfind) rfl (fun _ _ => rfl) h

theorem soldAuction_cancel_order_buyer [LinearOrderedRing R] (s : Store R)
    (session : Option SessionUser) (orderId : Nat) (productId : Nat)
    (h : SoldAuction s.products productId) :
    SoldAuction (cancel_order_buyer s session orderId).2.products productId := by
  rcases cancel_order_buyer_effects s session orderId with ⟨hsame, _⟩ | hyes
  · rw [hsame]; exact h
  · obtain ⟨user, order, _, _, _, _, _, _, _, _, hprod, _⟩ := hyes
    rcases hprod with hsame | ⟨product, product', hfind, hfixed, hid, hfixed', heq⟩
    · rw [hsame]; exact h
    · rw [heq]
      have hid' : product._id = order.productId := findProductById_id hfind
      exact soldAuction_saveProduct s.products productId product product'
        (by rw [hid, hid']; exact hfind) (hfixed'.trans hfixed.symm)
        (fun ha _ => absurd (hfixed.symm.trans ha) (by decide)) h

theorem soldAuction_cancel_order_farmer [LinearOrderedRing R] (s : Store R)
    (session : Option SessionUser) (orderId : Nat) (productId : Nat)
    (h : SoldAuction s.products productId) :
    SoldAuction (cancel_order_farmer s session orderId).2.products productId := by
  rcases cancel_order_farmer_effects s session orderId with ⟨hsame, _⟩ | hyes
  · rw [hsame]; exact h
  · obtain ⟨user, order, _, _, _, _, _, _, _, _, hprod, _⟩ := hyes
    rcases hprod with hsame | ⟨product, product', hfind, hfixed, hid, hfixed', heq⟩
    · rw [hsame]; exact h
    · rw [heq]
      have hid' : product._id = order.productId := findProductById_id hfind
      exact soldAuction_saveProduct s.products productId product product'
        (by rw [hid, hid']; exact hfind) (hfixed'.trans hfixed.symm)
        (fun ha _ => absurd (hfixed.symm.trans ha) (by decide)) h

theorem soldAuction_checkoutLine [LinearOrderedRing R] (s : Store R) (user : SessionUser)
    (itemProduct product : Product R) (quantity : R)
    (hfind : findProductById s.products itemProduct._id = some product) (productId : Nat)
    (h : SoldAuction s.products productId) :
    SoldAuction (checkoutLine s user itemProduct product quantity).products productId := by
  have hid : product._id = itemProduct._id := findProductById_id hfind
  by_cases hskip : product.listingType = ListingType.FIXED ∧ product.quantity < quantity
  · rw [checkoutLine_skipped s user itemProduct product quantity hskip.1 hskip.2]; exact h
  · obtain ⟨product', extra, heq, hid', htype, _, hsold⟩ :=
      checkoutLine_shape s user itemProduct product quantity hskip
    rw [heq]
    exact soldAuction_saveProduct s.products productId product product'
      (by rw [hid', hid]; exact hfind) htype (fun ha _ => hsold ha) h

theorem soldAuction_checkoutLoop [LinearOrderedRing R] (user : SessionUser)
    (lines : List (Option (Product R) × R)) (productId : Nat) (s : Store R)
    (h : SoldAuction s.products productId) :
    (∀ s', checkoutLoop s user lines = Except.ok s' → SoldAuction s'.products productId) ∧
    (∀ s', checkoutLoop s user lines = Except.error s' →
      SoldAuction s'.products productId) := by
  induction lines generalizing s with
  | nil =>
    constructor
    · intro s' hs'
      have : s = s' := by simpa [checkoutLoop] using hs'
      rw [← this]; exact h
    · intro s' hs'
      simp [checkoutLoop] at hs'
  | cons line rest ih =>
    obtain ⟨populated, quantity⟩ := line
    cases populated with
    | none => exact ih s h
    | some itemProduct =>
      cases hfind : findProductById s.products itemProduct._id with
      | none =>
        have hstep : checkoutLoop s user ((some itemProduct, quantity) :: rest) =
            Except.error s := by simp [checkoutLoop, hfind]
        rw [hstep]
        constructor
        · intro s' hs'; simp at hs'
        · intro s' hs'
          have : s = s' := by simpa using hs'
          rw [← this]; exact h
      | some product =>
        have hstep : checkoutLoop s user ((some itemProduct, quantity) :: rest) =
            checkoutLoop (checkoutLine s user itemProduct product quantity) user rest := by
          simp [checkoutLoop, hfind]
        rw [hstep]
        exact ih _ (soldAuction_checkoutLine s user itemProduct product quantity hfind
          productId h)

theorem soldAuction_checkout [LinearOrderedRing R] (s : Store R)
    (session : Option SessionUser) (productId : Nat)
    (h : SoldAuction s.products productId) :
    SoldAuction (checkout s session).2.products productId := by
  cases session with
  | none => simpa [checkout, isLoggedIn] using h
  | some user =>
    by_cases hrole : user.role = "buyer"
    · cases hcart : findCartOfBuyer s.carts user._id with
      | none => simpa [checkout, isLoggedIn, isBuyer, hrole, hcart] using h
      | some cart =>
        by_cases hempty : cart.items.length = 0
        · simpa [checkout, isLoggedIn, isBuyer, hrole, hcart, hempty] using h
        · have hloop := soldAuction_checkoutLoop user (populateItems s.products cart.items)
            productId s h
          cases hres : checkoutLoop s user (populateItems s.products cart.items) with
          | error s' =>
            have := hloop.2 s' hres
            simpa [checkout, isLoggedIn, isBuyer, hrole, hcart, hempty, hres] using this
          | ok s' =>
            have := hloop.1 s' hres
            simpa [checkout, isLoggedIn, isBuyer, hrole, hcart, hempty, hres] using this
    · simpa [checkout, isLoggedIn, isBuyer, hrole] using h

theorem soldAuction_serve [LinearOrderedRing R] (s : Store R) (request : Request R)
    (productId : Nat) (h : SoldAuction s.products productId) :
    SoldAuction (serve s request).products productId := by
  cases request with
  | place_bid session productId' bidAmount =>
    exact soldAuction_place_bid s session productId' bidAmount productId h
  | cancel_bid session bidId => exact soldAuction_cancel_bid s session bidId productId h
  | accept_highest_bid session productId' =>
    exact soldAuction_accept_highest_bid s session productId' productId h
  | checkout session => exact soldAuction_checkout s session productId h
  | cancel_order_buyer session orderId =>
    exact soldAuction_cancel_order_buyer s session orderId productId h
  | cancel_order_farmer session orderId =>
    exact soldAuction_cancel_order_farmer s session orderId productId h

theorem soldAuction_serveAll [LinearOrderedRing R] (s : Store R)
    (requests : List (Request R)) (productId : Nat)
    (h : SoldAuction s.products productId) :
    SoldAuction (serveAll s requests).products productId := by
  induction requests generalizing s with
  | nil => exact h
  | cons request requests ih => exact ih (serve s request) (soldAuction_serve s request productId h)

end SoldAuctionFacts

section SoldAuctionClaim

variable {R : Type}

/-- C17: once an AUCTION listing is SOLD, after any sequence of place_bid, cancel_bid,
accept_highest_bid, checkout and cancel_order requests (buyer or farmer path) it is still
stored as an AUCTION listing with status SOLD; and a cancel_order, on either path, for an
order whose listing is that AUCTION listing leaves the products collection, so the
listing's stock and status, unchanged. -/
theorem sold_auction_stays_sold [LinearOrderedRing R] (s : Store R) (productId : Nat)
    (product : Product R) (hfind : findProductById s.products productId = some product)
    (hauction : product.listingType = ListingType.AUCTION)
    (hsold : product.status = ProductStatus.SOLD) :
    (∀ requests : List (Request R),
      ∃ p, findProductById (serveAll s requests).products productId = some p ∧
        p.listingType = ListingType.AUCTION ∧ p.status = ProductStatus.SOLD) ∧
    (∀ (session : Option SessionUser) (orderId : Nat),
      (∀ order ∈ s.orders, order._id = orderId → order.productId = productId) →
      (cancel_order_buyer s session orderId).2.products = s.products ∧
      (cancel_order_farmer s session orderId).2.products = s.products) := by
  refine ⟨?_, ?_⟩
  · intro requests
    exact soldAuction_serveAll s requests productId ⟨product, hfind, hauction, hsold⟩
  · intro session orderId horder
    constructor
    · rcases cancel_order_buyer_effects s session orderId with ⟨hsame, _⟩ | hyes
      · rw [hsame]
      · obtain ⟨user, order, _, _, hown, _, _, _, _, _, _, hkeep⟩ := hyes
        have ho := findOrderOfBuyer_some hown
        have hp : order.productId = productId := horder order ho.1 ho.2.1
        exact hkeep product (by rw [hp]; exact hfind) hauction
    · rcases cancel_order_farmer_effects s session orderId with ⟨hsame, _⟩ | hyes
      · rw [hsame]
      · obtain ⟨user, order, _, _, hown, _, _, _, _, _, _, hkeep⟩ := hyes
        have ho := findOrderOfFarmer_some hown
        have hp : order.productId = productId := horder order ho.1 ho.2.1
        exact hkeep product (by rw [hp]; exact hfind) hauction

/-- Witness for C17: the sold listing of the bidding scenario is still SOLD after the
requests made after the sale, and cancelling the order of the sale leaves the products
as they were. -/
theorem sold_auction_stays_sold_witness :
    (∃ p, findProductById (serveAll storeAccepted requestsAfterSale).products 1 = some p ∧
      p.listingType = ListingType.AUCTION ∧ p.status = ProductStatus.SOLD) ∧
    (cancel_order_buyer storeAccepted (some buyerA) 3).1 =
      Response.redirect "/buyer/orders?msg=Order+Cancelled" ∧
    (cancel_order_buyer storeAccepted (some buyerA) 3).2.products = storeAccepted.products ∧
    (cancel_order_farmer storeAccepted (some farmerOwner) 3).2.products =
      storeAccepted.products :=
  have h := sold_auction_stays_sold storeAccepted 1
    { listing120 with status := ProductStatus.SOLD, winner := some 20 }
    (by decide) (by decide) (by decide)
  ⟨h.1 requestsAfterSale, by decide, (h.2 (some buyerA) 3 (by decide)).1,
    (h.2 (some farmerOwner) 3 (by decide)).2⟩

end SoldAuctionClaim

/-! ## Notifications and deletion: claims C18 and C19 -/

section NotificationClaims

variable {R : Type}

/-- C18 as stated fails: the owner's accept_highest_bid in the bidding scenario succeeds
and buyer A's cancel_order after checkout succeeds, and neither appends a Notification. -/
theorem sale_and_cancel_order_notify_nobody :
    (accept_highest_bid storeScenario (some farmerOwner) 1).1 =
      Response.redirect "/farmer/orders" ∧
    (accept_highest_bid storeScenario (some farmerOwner) 1).2.notifications =
      storeScenario.notifications ∧
    (cancel_order_buyer storeCheckedOut (some buyerA) 7).1 =
      Response.redirect "/buyer/orders?msg=Order+Cancelled" ∧
    (cancel_order_buyer storeCheckedOut (some buyerA) 7).2.notifications =
      storeCheckedOut.notifications ∧
    (cancel_order_farmer storeCheckedOut (some farmerOwner) 7).1 =
      Response.redirect "/farmer/orders?msg=Order+Cancelled" ∧
    (cancel_order_farmer storeCheckedOut (some farmerOwner) 7).2.notifications =
      storeCheckedOut.notifications := by
  decide

/-- C18 amended: each checkout line that creates an Order appends Notifications the last
of which is an ORDER notification addressed to the seller of the listing; the routes
accept_highest_bid and cancel_order (buyer and farmer path) hold no notification
statement and always leave the notifications as they were. -/
theorem checkout_line_notifies_seller [LinearOrderedRing R] (s : Store R)
    (user : SessionUser) (itemProduct product : Product R) (quantity : R)
    (hline : ¬ (product.listingType = ListingType.FIXED ∧ product.quantity < quantity)) :
    (∃ extra : List Notification,
      (checkoutLine s user itemProduct product quantity).notifications =
        s.notifications ++ extra ++ [{ userId := product.farmerId, type := "ORDER" }]) ∧
    (∀ (session : Option SessionUser) (productId : Nat),
      (accept_highest_bid s session productId).2.notifications = s.notifications) ∧
    (∀ (session : Option SessionUser) (orderId : Nat),
      (cancel_order_buyer s session orderId).2.notifications = s.notifications ∧
      (cancel_order_farmer s session orderId).2.notifications = s.notifications) := by
  refine ⟨?_, ?_, ?_⟩
  · obtain ⟨product', extra, heq, _, _, hfarmer, _⟩ :=
      checkoutLine_shape s user itemProduct product quantity hline
    rw [heq]
    exact ⟨extra, by simp [orderCreated, hfarmer]⟩
  · intro session productId
    rcases accept_highest_bid_cases s session productId with ⟨hsame, _⟩ | hyes
    · rw [hsame]
    · obtain ⟨_, _, _, _, _, _, _, heq⟩ := hyes
      rw [heq]; rfl
  · intro session orderId
    constructor
    · rcases cancel_order_buyer_effects s session orderId with ⟨hsame, _⟩ | hyes
      · rw [hsame]
      · obtain ⟨_, _, _, _, _, _, _, _, hn, _⟩ := hyes
        exact hn
    · rcases cancel_order_farmer_effects s session orderId with ⟨hsame, _⟩ | hyes
      · rw [hsame]
      · obtain ⟨_, _, _, _, _, _, _, _, hn, _⟩ := hyes
        exact hn

/-- Witness for C18 amended: the served line of buyer A's cart notifies seller 10. -/
theorem checkout_line_notifies_seller_witness :
    (checkoutLine storeCart buyerA fixedStock5 fixedStock5 2).notifications =
      [{ userId := 10, type := "ORDER" }] ∧
    ∃ extra : List Notification,
      (checkoutLine storeCart buyerA fixedStock5 fixedStock5 2).notifications =
        storeCart.notifications ++ extra ++
          [{ userId := fixedStock5.farmerId, type := "ORDER" }] :=
  ⟨by decide,
    (checkout_line_notifies_seller storeCart buyerA fixedStock5 fixedStock5 2
      (by decide)).1⟩

/-- C19, the code at the failing input: on the SOLD listing of the bidding scenario the
seller's delete-product is refused and changes nothing, while the admin's delete-product
removes the listing and leaves its bid behind. -/
theorem admin_delete_removes_sold_listing :
    (findProductById storeAccepted.products 1).map (fun p => p.status) =
      some ProductStatus.SOLD ∧
    delete_product storeAccepted (some farmerOwner) 1 =
      (Response.redirect "/farmer/products?msg=Cannot+Delete+Sold+Product", storeAccepted) ∧
    (admin_delete_product storeAccepted (some adminUser) 1).1 =
      Response.redirect "/admin/products" ∧
    findProductById (admin_delete_product storeAccepted (some adminUser) 1).2.products 1 =
      none ∧
    (admin_delete_product storeAccepted (some adminUser) 1).2.bids = [bidA120] := by
  decide

end NotificationClaims

/-! ## Two bids of the same amount: claim C20 -/

section InterleavingFacts

variable {R : Type}

theorem interleave_append [LinearOrder R] (s : Store R) (first second : BidTask R)
    (a b : List Bool) :
    interleave s first second (a ++ b) =
      interleave (interleave s first second a).1 (interleave s first second a).2.1
        (interleave s first second a).2.2 b := by
  induction a generalizing s first second with
  | nil => rfl
  | cons x xs ih =>
    cases x with
    | false => simp only [List.cons_append, interleave]; exact ih _ _ _
    | true => simp only [List.cons_append, interleave]; exact ih _ _ _

/-- On the document that was read and is still the stored one, setting `currentBid` is
saving the document with `currentBid` set. -/
theorem setCurrentBid_eq_saveProduct (ps : List (Product R)) (id : Nat)
    (product : Product R) (amount : R) (h : findProductById ps id = some product) :
    setCurrentBid ps product._id amount =
      saveProduct ps { product with currentBid := amount } := by
  have hid : product._id = id := findProductById_id h
  induction ps with
  | nil => simp [findProductById] at h
  | cons q qs ih =>
    unfold setCurrentBid saveProduct
    by_cases hq : q._id = id
    · have hqp : q = product := by simpa [findProductById, hq] using h
      subst hqp
      simp
    · have hq' : ¬ q._id = product._id := by rw [hid]; exact hq
      have h' : findProductById qs id = some product := by
        simpa [findProductById, hq] using h
      rw [if_neg hq']
      have hq'' : ¬ q._id = ({ product with currentBid := amount } : Product R)._id := hq'
      rw [if_neg hq'', ih h']

/-- A handler that is given five steps with nobody in between does what the route
place_bid does. -/
theorem interleave_first_alone [LinearOrder R] [Zero R] (s : Store R)
    (session : Option SessionUser) (productId : Nat) (bidAmount : Option R)
    (second : BidTask R) :
    interleave s (bidTask session productId bidAmount) second (List.replicate 5 false) =
      ((place_bid s session productId bidAmount).2,
        BidTask.answered (place_bid s session productId bidAmount).1, second) := by
  cases session with
  | none => simp [List.replicate, interleave, advance, bidTask, place_bid, isLoggedIn]
  | some user =>
    by_cases hrole : user.role = "buyer"
    · cases bidAmount with
      | none =>
        simp [List.replicate, interleave, advance, bidTask, place_bid, isLoggedIn, isBuyer,
          hrole]
      | some amount =>
        by_cases hz : amount = 0
        · simp [List.replicate, interleave, advance, bidTask, place_bid, isLoggedIn, isBuyer,
            hrole, hz]
        · cases hfind : findProductById s.products productId with
          | none =>
            simp [List.replicate, interleave, advance, bidTask, place_bid, isLoggedIn,
              isBuyer, hrole, hz, hfind]
          | some product =>
            by_cases hle : amount ≤ product.currentBid
            · simp [List.replicate, interleave, advance, bidTask, place_bid, isLoggedIn,
                isBuyer, hrole, hz, hfind, hle]
            · have hset := setCurrentBid_eq_saveProduct s.products productId product amount
                hfind
              simp [List.replicate, interleave, advance, bidTask, place_bid, isLoggedIn,
                isBuyer, hrole, hz, hfind, hle, hset]
    · simp [List.replicate, interleave, advance, bidTask, place_bid, isLoggedIn, isBuyer,
        hrole]

theorem interleave_second_alone [LinearOrder R] [Zero R] (s : Store R)
    (session : Option SessionUser) (productId : Nat) (bidAmount : Option R)
    (first : BidTask R) :
    interleave s first (bidTask session productId bidAmount) (List.replicate 5 true) =
      ((place_bid s session productId bidAmount).2, first,
        BidTask.answered (place_bid s session productId bidAmount).1) := by
  cases session with
  | none => simp [List.replicate, interleave, advance, bidTask, place_bid, isLoggedIn]
  | some user =>
    by_cases hrole : user.role = "buyer"
    · cases bidAmount with
      | none =>
        simp [List.replicate, interleave, advance, bidTask, place_bid, isLoggedIn, isBuyer,
          hrole]
      | some amount =>
        by_cases hz : amount = 0
        · simp [List.replicate, interleave, advance, bidTask, place_bid, isLoggedIn, isBuyer,
            hrole, hz]
        · cases hfind : findProductById s.products productId with
          | none =>
            simp [List.replicate, interleave, advance, bidTask, place_bid, isLoggedIn,
              isBuyer, hrole, hz, hfind]
          | some product =>
            by_cases hle : amount ≤ product.currentBid
            · simp [List.replicate, interleave, advance, bidTask, place_bid, isLoggedIn,
                isBuyer, hrole, hz, hfind, hle]
            · have hset := setCurrentBid_eq_saveProduct s.products productId product amount
                hfind
              simp [List.replicate, interleave, advance, bidTask, place_bid, isLoggedIn,
                isBuyer, hrole, hz, hfind, hle, hset]
    · simp [List.replicate, interleave, advance, bidTask, place_bid, isLoggedIn, isBuyer,
        hrole]

end InterleavingFacts

section InterleavingClaim

variable {R : Type}

/-- C20 as stated fails: on the scenario listing (price 100) buyers A and B both bid 120
and their handlers take their steps in turn; both read the price 100, both are accepted
and the ledger gains two bids. -/
theorem same_amount_bids_in_turn_both_accepted :
    interleave store100 (bidTask (some buyerA) 1 (some 120))
        (bidTask (some buyerB) 1 (some 120)) inTurn =
      ({ products := [listing120]
         bids := [{ _id := 2, productId := 1, buyerId := 20, amount := 120 },
                  { _id := 3, productId := 1, buyerId := 21, amount := 120 }]
         notifications := [{ userId := 10, type := "BID" }, { userId := 10, type := "BID" }]
         nextId := 4 },
        BidTask.answered (Response.redirect "/buyer/products?msg=Bid+Placed+Successfully"),
        BidTask.answered (Response.redirect "/buyer/products?msg=Bid+Placed+Successfully")) := by
  decide

/-- C20 amended: the route holds no lock and checks the price it read, so the claim
holds when the steps of the two requests do not interleave.  When two buyers bid the
same non-zero amount above the current price of an existing listing and the first
handler ends before the second starts, the result is that of the two place_bid served
one after another: the first bid is accepted, the second is answered Bid Too Low, and
the ledger gains exactly one bid, that of the first buyer. -/
theorem same_amount_bids_one_after_another [LinearOrder R] [Zero R] (s : Store R)
    (first second : SessionUser) (hfirst : first.role = "buyer")
    (hsecond : second.role = "buyer") (productId : Nat) (product : Product R)
    (hfind : findProductById s.products productId = some product) (amount : R)
    (hne : amount ≠ 0) (hlt : product.currentBid < amount) :
    interleave s (bidTask (some first) productId (some amount))
        (bidTask (some second) productId (some amount)) oneAfterAnother =
      ((place_bid (place_bid s (some first) productId (some amount)).2 (some second)
          productId (some amount)).2,
        BidTask.answered (Response.redirect "/buyer/products?msg=Bid+Placed+Successfully"),
        BidTask.answered (Response.redirect "/buyer/products?msg=Bid+Too+Low")) ∧
    (place_bid (place_bid s (some first) productId (some amount)).2 (some second)
        productId (some amount)).2.bids =
      s.bids ++ [{ _id := s.nextId, productId := productId, buyerId := first._id,
                   amount := amount }] := by
  have hid : product._id = productId := findProductById_id hfind
  have h1 := place_bid_placed s first hfirst productId product hfind amount hne hlt
  have hfind2 : findProductById (bidPlaced s first product amount).products productId =
      some { product with currentBid := amount } := by
    have := findProductById_saveProduct_self s.products
      { product with currentBid := amount } product (by simpa [hid] using hfind)
    simpa [bidPlaced, hid] using this
  have h2 := place_bid_too_low (bidPlaced s first product amount) second hsecond productId
    { product with currentBid := amount } hfind2 amount hne (le_refl amount)
  constructor
  · unfold oneAfterAnother
    rw [interleave_append, interleave_first_alone]
    simp only []
    rw [interleave_second_alone, h1]
    simp only []
    rw [h2]
  · rw [h1]
    simp only []
    rw [h2]
    simp [bidPlaced, hid]

/-- Witness for C20 amended: buyers A and B bid 120 on the scenario listing, A's handler
ending before B's starts. -/
theorem same_amount_bids_one_after_another_witness :
    (interleave store100 (bidTask (some buyerA) 1 (some 120))
        (bidTask (some buyerB) 1 (some 120)) oneAfterAnother).2 =
      (BidTask.answered (Response.redirect "/buyer/products?msg=Bid+Placed+Successfully"),
        BidTask.answered (Response.redirect "/buyer/products?msg=Bid+Too+Low")) ∧
    (place_bid (place_bid store100 (some buyerA) 1 (some 120)).2 (some buyerB) 1
        (some 120)).2.bids = [bidA120] := by
  have h := same_amount_bids_one_after_another store100 buyerA buyerB (by decide)
    (by decide) 1 listing100 (by decide) (120 : ℤ) (by decide) (by decide)
  exact ⟨by rw [h.1], h.2⟩

end InterleavingClaim

/-! ## The two cancel_order paths compared: claim C21 -/

section CancelPathsFacts

variable {R : Type}

/-- The two paths of cancel_order leave the same store whenever the listing of the order
is already OPEN, or is SOLD exactly when the restored stock is positive. -/
theorem cancel_order_paths_agree [LinearOrderedRing R] (s : Store R)
    (buyer farmer : SessionUser) (hbuyer : buyer.role = "buyer")
    (hfarmer : farmer.role = "farmer") (orderId : Nat) (order : Order R)
    (hownB : findOrderOfBuyer s.orders orderId buyer._id = some order)
    (hownF : findOrderOfFarmer s.orders orderId farmer._id = some order)
    (hlisting : ∀ product, findProductById s.products order.productId = some product →
      product.listingType = ListingType.FIXED →
      product.status = ProductStatus.OPEN ∨
        (product.status = ProductStatus.SOLD ↔ 0 < product.quantity + 1)) :
    (cancel_order_buyer s (some buyer) orderId).2 =
      (cancel_order_farmer s (some farmer) orderId).2 := by
  by_cases hdone : order.status = "Delivered" ∨ order.status = "Cancelled"
  · rw [cancel_order_buyer_rejected s buyer hbuyer orderId order hownB hdone,
      cancel_order_farmer_rejected s farmer hfarmer orderId order hownF hdone]
  · rw [cancel_order_buyer_done s buyer hbuyer orderId order hownB hdone,
      cancel_order_farmer_done s farmer hfarmer orderId order hownF hdone]
    rcases hfind : findProductById s.products order.productId with _ | product
    · rfl
    · by_cases hfixed : product.listingType = ListingType.FIXED
      · dsimp only
        rw [if_pos hfixed, if_pos hfixed]
        have hone : orderQuantityOrOne order = (1 : R) := rfl
        rw [hone]
        rcases hlisting product hfind hfixed with hopen | hiff
        · have hnot : ¬ product.status = ProductStatus.SOLD := by rw [hopen]; decide
          have hsame : ({ product with
              quantity := product.quantity + 1, status := ProductStatus.OPEN } : Product R) =
              { product with quantity := product.quantity + 1 } := by
            cases product
            simp_all
          by_cases hpos : 0 < product.quantity + 1
          · simp [hnot, hpos, hsame]
          · simp [hnot, hpos]
        · by_cases hsold : product.status = ProductStatus.SOLD
          · have hpos : 0 < product.quantity + 1 := hiff.mp hsold
            simp [hsold, hpos]
          · have hpos : ¬ 0 < product.quantity + 1 := fun h => hsold (hiff.mpr h)
            simp [hsold, hpos]
      · dsimp only
        rw [if_neg hfixed, if_neg hfixed]

end CancelPathsFacts

section CancelPathsClaim

/-- C21, the code at the failing input: a fixed-price listing created with the quantity
-3 was bid on and sold, so it is SOLD with stock -3 and the sale made Order 10.  The
buyer's cancel_order and the seller's cancel_order both succeed, both store the order as
Cancelled and both bring the stock to -2, but the buyer path leaves the listing OPEN and
the farmer path leaves it SOLD.  On a CLOSED fixed-price listing with stock 3 the two
paths differ as well: the buyer path leaves it OPEN, the farmer path CLOSED. -/
theorem cancel_order_paths_differ :
    findOrderOfBuyer storeNegativeSold.orders 10 buyerA._id =
      findOrderOfFarmer storeNegativeSold.orders 10 farmerOwner._id ∧
    (findProductById storeNegativeSold.products 8).map
      (fun p => (p.listingType, p.status, p.quantity)) =
      some (ListingType.FIXED, ProductStatus.SOLD, -3) ∧
    (cancel_order_buyer storeNegativeSold (some buyerA) 10).1 =
      Response.redirect "/buyer/orders?msg=Order+Cancelled" ∧
    (cancel_order_farmer storeNegativeSold (some farmerOwner) 10).1 =
      Response.redirect "/farmer/orders?msg=Order+Cancelled" ∧
    (cancel_order_buyer storeNegativeSold (some buyerA) 10).2.orders =
      (cancel_order_farmer storeNegativeSold (some farmerOwner) 10).2.orders ∧
    (findProductById (cancel_order_buyer storeNegativeSold (some buyerA) 10).2.products
      8).map (fun p => (p.status, p.quantity)) = some (ProductStatus.OPEN, -2) ∧
    (findProductById (cancel_order_farmer storeNegativeSold (some farmerOwner) 10).2.products
      8).map (fun p => (p.status, p.quantity)) = some (ProductStatus.SOLD, -2) ∧
    (findProductById (cancel_order_buyer storeClosed (some buyerA) 7).2.products 6).map
      (fun p => (p.status, p.quantity)) = some (ProductStatus.OPEN, 4) ∧
    (findProductById (cancel_order_farmer storeClosed (some farmerOwner) 7).2.products
      6).map (fun p => (p.status, p.quantity)) = some (ProductStatus.CLOSED, 4) := by
  decide

end CancelPathsClaim

/-! ## Quantities in the cart: claim C22 -/

section CartFacts

variable {R : Type}

theorem stockNotRaised_refl [LinearOrderedRing R] (ps : List (Product R)) :
    StockNotRaised ps ps :=
  fun _ p hp => ⟨p, hp, le_refl _⟩

theorem stockNotRaised_trans [LinearOrderedRing R] {a b c : List (Product R)}
    (hab : StockNotRaised a b) (hbc : StockNotRaised b c) : StockNotRaised a c := by
  intro id p hp
  obtain ⟨p', hp', hle⟩ := hab id p hp
  obtain ⟨p'', hp'', hle'⟩ := hbc id p' hp'
  exact ⟨p'', hp'', le_trans hle' hle⟩

theorem stockNotRaised_saveProduct [LinearOrderedRing R] (ps : List (Product R))
    (stored saved : Product R) (hfind : findProductById ps saved._id = some stored)
    (hle : saved.quantity ≤ stored.quantity) : StockNotRaised ps (saveProduct ps saved) := by
  intro id p hp
  by_cases hid : id = saved._id
  · subst hid
    have hpp : stored = p := Option.some.inj (hfind.symm.trans hp)
    subst hpp
    exact ⟨saved, findProductById_saveProduct_self ps saved stored hfind, hle⟩
  · exact ⟨p, by rw [findProductById_saveProduct_of_ne ps saved id hid]; exact hp, le_refl _⟩

/-- A line of positive quantity does not raise the stock of any listing. -/
theorem checkoutLine_stock_le [LinearOrderedRing R] (s : Store R) (user : SessionUser)
    (itemProduct product : Product R) (quantity : R)
    (hfind : findProductById s.products itemProduct._id = some product)
    (hq : 0 < quantity) :
    StockNotRaised s.products (checkoutLine s user itemProduct product quantity).products := by
  have hid : product._id = itemProduct._id := findProductById_id hfind
  have hself : findProductById s.products product._id = some product := by
    rw [hid]; exact hfind
  unfold checkoutLine
  by_cases hfixed : product.listingType = ListingType.FIXED
  · rw [if_pos hfixed]
    by_cases hlt : product.quantity < quantity
    · rw [if_pos hlt]; exact stockNotRaised_refl s.products
    · rw [if_neg hlt]
      have hge : quantity ≤ product.quantity := not_lt.mp hlt
      by_cases hzero : product.quantity - quantity ≤ 0
      · rw [if_pos hzero]
        exact stockNotRaised_saveProduct s.products product
          { product with quantity := 0, status := ProductStatus.SOLD } hself
          (le_trans (le_of_lt hq) hge)
      · rw [if_neg hzero]
        exact stockNotRaised_saveProduct s.products product
          { product with quantity := product.quantity - quantity } hself
          (sub_le_self _ (le_of_lt hq))
  · rw [if_neg hfixed]
    exact stockNotRaised_saveProduct s.products product
      { product with status := ProductStatus.SOLD, winner := some user._id } hself
      (le_refl _)

theorem checkoutLoop_stock_le [LinearOrderedRing R] (user : SessionUser)
    (lines : List (Option (Product R) × R)) (hlines : ∀ line ∈ lines, 0 < line.2)
    (s : Store R) :
    (∀ s', checkoutLoop s user lines = Except.ok s' →
      StockNotRaised s.products s'.products) ∧
    (∀ s', checkoutLoop s user lines = Except.error s' →
      StockNotRaised s.products s'.products) := by
  induction lines generalizing s with
  | nil =>
    constructor
    · intro s' hs'
      have : s = s' := by simpa [checkoutLoop] using hs'
      rw [← this]; exact stockNotRaised_refl s.products
    · intro s' hs'
      simp [checkoutLoop] at hs'
  | cons line rest ih =>
    have hrest : ∀ l ∈ rest, 0 < l.2 := fun l hl => hlines l (List.mem_cons_of_mem _ hl)
    have hq : 0 < line.2 := hlines line (List.mem_cons_self _ _)
    obtain ⟨populated, quantity⟩ := line
    cases populated with
    | none => exact ih hrest s
    | some itemProduct =>
      cases hfind : findProductById s.products itemProduct._id with
      | none =>
        have hstep : checkoutLoop s user ((some itemProduct, quantity) :: rest) =
            Except.error s := by simp [checkoutLoop, hfind]
        rw [hstep]
        constructor
        · intro s' hs'; simp at hs'
        · intro s' hs'
          have : s = s' := by simpa using hs'
          rw [← this]; exact stockNotRaised_refl s.products
      | some product =>
        have hstep : checkoutLoop s user ((some itemProduct, quantity) :: rest) =
            checkoutLoop (checkoutLine s user itemProduct product quantity) user rest := by
          simp [checkoutLoop, hfind]
        rw [hstep]
        have hline := checkoutLine_stock_le s user itemProduct product quantity hfind hq
        have hnext := ih hrest (checkoutLine s user itemProduct product quantity)
        exact ⟨fun s' hs' => stockNotRaised_trans hline (hnext.1 s' hs'),
          fun s' hs' => stockNotRaised_trans hline (hnext.2 s' hs')⟩

theorem findCartOfBuyer_mem {carts : List (Cart R)} {buyer : Nat} {cart : Cart R}
    (h : findCartOfBuyer carts buyer = some cart) : cart ∈ carts :=
  List.mem_of_find?_eq_some h

theorem populateItems_quantity (ps : List (Product R)) (items : List (CartItem R))
    (line : Option (Product R) × R) (h : line ∈ populateItems ps items) :
    ∃ item ∈ items, line.2 = item.quantity := by
  obtain ⟨item, hitem, heq⟩ := List.mem_map.mp h
  exact ⟨item, hitem, by rw [← heq]⟩

theorem checkout_stock_le [LinearOrderedRing R] (s : Store R)
    (hpos : CartsPositive s.carts) (session : Option SessionUser) :
    StockNotRaised s.products (checkout s session).2.products := by
  cases session with
  | none => simpa [checkout, isLoggedIn] using stockNotRaised_refl s.products
  | some user =>
    by_cases hrole : user.role = "buyer"
    · cases hcart : findCartOfBuyer s.carts user._id with
      | none =>
        simpa [checkout, isLoggedIn, isBuyer, hrole, hcart] using
          stockNotRaised_refl s.products
      | some cart =>
        by_cases hempty : cart.items.length = 0
        · simpa [checkout, isLoggedIn, isBuyer, hrole, hcart, hempty] using
            stockNotRaised_refl s.products
        · have hlines : ∀ line ∈ populateItems s.products cart.items, 0 < line.2 := by
            intro line hl
            obtain ⟨item, hitem, heq⟩ := populateItems_quantity s.products cart.items line hl
            rw [heq]
            exact hpos cart (findCartOfBuyer_mem hcart) item hitem
          have hloop := checkoutLoop_stock_le user (populateItems s.products cart.items)
            hlines s
          cases hres : checkoutLoop s user (populateItems s.products cart.items) with
          | error s' =>
            have := hloop.2 s' hres
            simpa [checkout, isLoggedIn, isBuyer, hrole, hcart, hempty, hres] using this
          | ok s' =>
            have := hloop.1 s' hres
            simpa [checkout, isLoggedIn, isBuyer, hrole, hcart, hempty, hres] using this
    · simpa [checkout, isLoggedIn, isBuyer, hrole] using stockNotRaised_refl s.products

theorem setItemQuantity_positive [LinearOrderedRing R] (items : List (CartItem R))
    (productId : Nat) (quantity : R) (hq : 0 < quantity)
    (h : ∀ item ∈ items, 0 < item.quantity) :
    ∀ item ∈ setItemQuantity items productId quantity, 0 < item.quantity := by
  induction items with
  | nil => intro item hi; simp [setItemQuantity] at hi
  | cons i is ih =>
    intro item hi
    unfold setItemQuantity at hi
    by_cases hp : i.product = productId
    · rw [if_pos hp] at hi
      rcases List.mem_cons.mp hi with e | e
      · rw [e]; exact hq
      · exact h item (List.mem_cons_of_mem _ e)
    · rw [if_neg hp] at hi
      rcases List.mem_cons.mp hi with e | e
      · rw [e]; exact h i (List.mem_cons_self _ _)
      · exact ih (fun x hx => h x (List.mem_cons_of_mem _ hx)) item e

theorem saveCartItems_positive [LinearOrderedRing R] (carts : List (Cart R)) (buyer : Nat)
    (items : List (CartItem R)) (hitems : ∀ item ∈ items, 0 < item.quantity)
    (h : CartsPositive carts) : CartsPositive (saveCartItems carts buyer items) := by
  induction carts with
  | nil =>
    intro cart hc item hi
    have : cart = { buyer := buyer, items := items } := by simpa [saveCartItems] using hc
    rw [this] at hi
    exact hitems item hi
  | cons c cs ih =>
    intro cart hc item hi
    unfold saveCartItems at hc
    by_cases hb : c.buyer = buyer
    · rw [if_pos hb] at hc
      rcases List.mem_cons.mp hc with e | e
      · rw [e] at hi; exact hitems item hi
      · exact h cart (List.mem_cons_of_mem _ e) item hi
    · rw [if_neg hb] at hc
      rcases List.mem_cons.mp hc with e | e
      · rw [e] at hi; exact h c (List.mem_cons_self _ _) item hi
      · exact ih (fun x hx => h x (List.mem_cons_of_mem _ hx)) cart e item hi

theorem quantityOrOne_pos [LinearOrderedRing R] (parsed : Option R)
    (hparsed : parsed = none ∨ ∃ q, parsed = some q ∧ 0 ≤ q) :
    (0 : R) < quantityOrOne parsed := by
  rcases hparsed with hn | ⟨q, hq, hge⟩
  · subst hn; exact zero_lt_one
  · subst hq
    by_cases hz : q = 0
    · simp [quantityOrOne, hz]
    · simp only [quantityOrOne, hz, if_false]
      exact lt_of_le_of_ne hge (Ne.symm hz)

theorem cartItemsOrEmpty_positive [LinearOrderedRing R] (carts : List (Cart R)) (buyer : Nat)
    (hpos : CartsPositive carts) : ∀ item ∈ cartItemsOrEmpty carts buyer, 0 < item.quantity := by
  unfold cartItemsOrEmpty
  cases hcart : findCartOfBuyer carts buyer with
  | none => intro item hi; simp at hi
  | some cart => exact hpos cart (findCartOfBuyer_mem hcart)

/-- Add-to-cart with a parsed quantity that is NaN or not negative keeps every line of
every cart positive. -/
theorem add_to_cart_positive [LinearOrderedRing R] (numberToString : R → String)
    (s : Store R) (hpos : CartsPositive s.carts) (session : Option SessionUser)
    (productId : Nat) (parsed : Option R)
    (hparsed : parsed = none ∨ ∃ q, parsed = some q ∧ 0 ≤ q) :
    CartsPositive (add_to_cart numberToString s session productId parsed).2.carts := by
  cases session with
  | none => simpa [add_to_cart, isLoggedIn] using hpos
  | some user =>
    by_cases hrole : user.role = "buyer"
    · have hquantity := quantityOrOne_pos parsed hparsed
      have hitems := cartItemsOrEmpty_positive s.carts user._id hpos
      simp only [add_to_cart, isLoggedIn, isBuyer, hrole, ne_eq, not_true_eq_false,
        if_false]
      generalize quantityOrOne parsed = quantity at hquantity ⊢
      generalize cartItemsOrEmpty s.carts user._id = items at hitems ⊢
      cases findProductById s.products productId with
      | none => exact hpos
      | some product =>
        dsimp only
        split
        · exact hpos
        · cases hex : items.find? (fun item => item.product == productId) with
          | none =>
            apply saveCartItems_positive _ _ _ _ hpos
            intro item hi
            rcases List.mem_append.mp hi with e | e
            · exact hitems item e
            · have : item = { product := productId, quantity := quantity } := by
                simpa using e
              rw [this]; exact hquantity
          | some existing =>
            apply saveCartItems_positive _ _ _ _ hpos
            exact setItemQuantity_positive items productId _
              (add_pos hquantity (hitems existing (List.mem_of_find?_eq_some hex))) hitems
    · simpa [add_to_cart, isLoggedIn, isBuyer, hrole] using hpos

end CartFacts

section CartClaim

variable {R : Type}

/-- C22 as stated fails: buyer A adds the parsed quantity -2 of the listing with stock 5
to the cart; add-to-cart accepts it, and checkout then raises the stock to 7 and creates
an Order for the quantity -2, of finalPrice -14. -/
theorem negative_cart_line_raises_stock :
    (add_to_cart (fun n => toString n) storeNoCart (some buyerA) 6 (some (-2))).1 =
      Response.redirect "/cart?msg=Item+Added" ∧
    storeNegativeLine.carts =
      [{ buyer := 20, items := [{ product := 6, quantity := -2 }] }] ∧
    (findProductById storeNegativeLine.products 6).map (fun p => p.quantity) = some 5 ∧
    (checkout storeNegativeLine (some buyerA)).1 =
      Response.redirect "/buyer/orders?msg=Order+Placed+Successfully" ∧
    (findProductById (checkout storeNegativeLine (some buyerA)).2.products 6).map
      (fun p => p.quantity) = some 7 ∧
    (checkout storeNegativeLine (some buyerA)).2.orders =
      [{ _id := 7, productId := 6, buyerId := 20, farmerId := 10, finalPrice := -14,
         status := "Pending" }] := by
  decide

/-- C22 amended: add-to-cart replaces only NaN and zero by 1 and checks no sign.  While
every line of every cart asks for a positive quantity, add-to-cart with a parsed
quantity that is NaN or not negative keeps it so, checkout loses no listing and raises
the stock of none, and every line that checkout serves, so every Order it creates, is
for a positive quantity. -/
theorem positive_cart_checkout_keeps_stock [LinearOrderedRing R] (s : Store R)
    (hpos : CartsPositive s.carts) :
    (∀ (numberToString : R → String) (session : Option SessionUser) (productId : Nat)
        (parsed : Option R), (parsed = none ∨ ∃ q, parsed = some q ∧ 0 ≤ q) →
      CartsPositive (add_to_cart numberToString s session productId parsed).2.carts) ∧
    (∀ session : Option SessionUser,
      StockNotRaised s.products (checkout s session).2.products) ∧
    (∀ (buyer : Nat) (cart : Cart R), findCartOfBuyer s.carts buyer = some cart →
      ∀ line ∈ populateItems s.products cart.items, 0 < line.2) := by
  refine ⟨?_, ?_, ?_⟩
  · intro numberToString session productId parsed hparsed
    exact add_to_cart_positive numberToString s hpos session productId parsed hparsed
  · intro session
    exact checkout_stock_le s hpos session
  · intro buyer cart hcart line hl
    obtain ⟨item, hitem, heq⟩ := populateItems_quantity s.products cart.items line hl
    rw [heq]
    exact hpos cart (findCartOfBuyer_mem hcart) item hitem

/-- Witness for C22 amended: buyer A's cart of the cart scenario has the lines 3 and 2;
after checkout the listings have stock 2 and 3, none above the 2 and 5 they had, and
adding 1 more unit of the second listing keeps the cart positive. -/
theorem positive_cart_checkout_keeps_stock_witness :
    CartsPositive storeCart.carts ∧
    StockNotRaised storeCart.products (checkout storeCart (some buyerA)).2.products ∧
    (checkout storeCart (some buyerA)).2.products.map (fun p => p.quantity) = [2, 3] ∧
    CartsPositive
      (add_to_cart (fun n => toString n) storeCart (some buyerA) 6 (some 1)).2.carts := by
  have hpos : CartsPositive storeCart.carts := by
    unfold CartsPositive
    decide
  have h := positive_cart_checkout_keeps_stock storeCart hpos
  exact ⟨hpos, h.2.1 (some buyerA), by decide,
    h.1 (fun n => toString n) (some buyerA) 6 (some 1) (Or.inr ⟨1, rfl, by decide⟩)⟩

end CartClaim

end Agreeconnect
